import Mathlib

set_option exponentiation.threshold 4096

/-!
# sweet.hpp `unit.hpp`: a shallow embedding of the unit-test framework

The development follows `src/unit.hpp`:

* `sname`, the short-file-name helper (lines 61-69);
* `comp_sel`, the type-directed comparator (lines 71-89);
* `Unittest` with `evaluates`, `evaluate`, `run` (lines 98-173);
* `getTests` / `runTests`, the registry and its driver (lines 93-96, 175-195);
* the assertion macros `AS_*`, `ASSERT_*`, `UNIT_COMPARE`, `UNIT_COMPARED`
  (lines 45-57).

Modelling conventions.

* `std::string` is Lean `String`; positions are indices into the list of
  characters.
* Operands of the templates range over the arithmetic types `bool`, `int` and
  `double` (`Val`).  `double` is IEEE-754 binary64 with round-to-nearest-even;
  a finite value is kept as an integer number of units of `2^(-1074)`, so the
  arithmetic below is exact integer arithmetic followed by one rounding.  The
  sign of zero and the payload of a NaN are not represented.
* Output streams are write-only: every operation returns the list of chunks it
  wrote, tagged with the stream that received them.
* `exit(1)` and C++ exceptions are explicit control results (`Ctrl`).
* A test body (`run_impl`) is user code.  It is a `Body`: a terminating tree of
  the calls it makes into the framework, branching on what each assertion
  returned.  `runTests` additionally records, in `ran`, the positions of the
  tests on which it invoked `run`.
* `errors_` starts at `0` and is only ever incremented, so it is a `Nat`;
  signed overflow of the C++ `int` (undefined behaviour) is not modelled.
* How `operator<<` prints a `double` belongs to the C++ library, not to this
  repository; it is the parameter `showDouble` wherever text is produced.
-/

namespace SweetUnit

/-! ## `std::string` helpers -/

/-- Index of the last occurrence of `c` in `l`, as `std::string::rfind(char)`
returns it; `none` stands for `string::npos`. -/
def rfind : List Char → Char → Option Nat
  | [], _ => none
  | x :: xs, c =>
    match rfind xs c with
    | some i => some (i + 1)
    | none => if x = c then some 0 else none

/-- Model of `Unit::sname` (lines 61-69): erase everything up to and including
the last `'/'`; a string without `'/'` is returned unchanged. -/
def sname (str : String) : String :=
  match rfind str.data '/' with
  | some idx => ⟨str.data.drop (idx + 1)⟩
  | none => str

/-! ## IEEE-754 binary64 -/

/-- A `double`.  `fin k` is the finite value `k * 2^(-1074)`; every finite
binary64 value has this form. -/
inductive Double where
  | nan : Double
  | inf (neg : Bool) : Double
  | fin (k : Int) : Double
  deriving DecidableEq, Repr

/-- Nearest integer to `n / d`, ties to even. -/
def rne (n d : Nat) : Nat :=
  let q := n / d
  let r := n % d
  if 2 * r < d then q
  else if d < 2 * r then q + 1
  else if q % 2 = 0 then q else q + 1

/-- Position of the leading binary digit of `n`, for `0 < n < 2^4096`
(binary search on the exponent). -/
def log2Small (n : Nat) : Nat :=
  [2048, 1024, 512, 256, 128, 64, 32, 16, 8, 4, 2, 1].foldl
    (fun acc s => if 2 ^ (acc + s) ≤ n then acc + s else acc) 0

/-- Round `n / d` (in units of `2^(-1074)`, below `2^4096`) to the nearest
value with at most 53 significant bits, ties to even. -/
def roundUnits (n d : Nat) : Nat :=
  let sh := (log2Small (n / d) + 1) - 53
  rne n (d * 2 ^ sh) * 2 ^ sh

namespace Double

/-- Round the rational `± n / d` units to a `double`; magnitudes that round to
`2^1024` or more overflow to infinity. -/
def round (neg : Bool) (n d : Nat) : Double :=
  if 2 ^ 2098 ≤ n / d then inf neg
  else
    let m := roundUnits n d
    if m < 2 ^ 2098 then fin (if neg then - (m : Int) else (m : Int)) else inf neg

/-- The finite value `m * 2^(e - 1074)`, negated when `neg`. -/
def scaled (neg : Bool) (m e : Nat) : Double :=
  fin (if neg then - ((m * 2 ^ e : Nat) : Int) else ((m * 2 ^ e : Nat) : Int))

/-- The `double` nearest to the integer `i` (conversion `int -> double`). -/
def ofInt (i : Int) : Double :=
  round (decide (i < 0)) (i.natAbs * 2 ^ 1074) 1

/-- The `double` denoted by the decimal literal `n / d` (`n`, `d` naturals). -/
def ofDecimal (n d : Nat) : Double :=
  round false (n * 2 ^ 1074) d

/-- Value of `std::numeric_limits<double>::infinity()`. -/
def infinity : Double := inf false

/-- IEEE subtraction `a - b`. -/
def sub : Double → Double → Double
  | nan, _ => nan
  | _, nan => nan
  | inf a, inf b => if a = b then nan else inf a
  | inf a, fin _ => inf a
  | fin _, inf b => inf (!b)
  | fin x, fin y => round (decide (x - y < 0)) (x - y).natAbs 1

/-- Absolute value, `fabs`. -/
def fabs : Double → Double
  | nan => nan
  | inf _ => inf false
  | fin k => fin (|k|)

/-- IEEE comparison `a == b`: false as soon as one side is a NaN. -/
def eq : Double → Double → Bool
  | inf a, inf b => a == b
  | fin x, fin y => decide (x = y)
  | _, _ => false

/-- IEEE comparison `a <= b`: false as soon as one side is a NaN. -/
def le : Double → Double → Bool
  | nan, _ => false
  | _, nan => false
  | inf a, inf b => a || !b
  | inf a, fin _ => a
  | fin _, inf b => !b
  | fin x, fin y => decide (x ≤ y)

/-- IEEE comparison `a < b`. -/
def lt : Double → Double → Bool
  | nan, _ => false
  | _, nan => false
  | inf a, inf b => a && !b
  | inf a, fin _ => a
  | fin _, inf b => !b
  | fin x, fin y => decide (x < y)

/-- The value is neither a NaN nor an infinity. -/
def isFinite : Double → Bool
  | fin _ => true
  | _ => false

end Double

/-! ## Operands -/

/-- An operand of an assertion together with its C++ type. -/
inductive Val where
  | bool (b : Bool) : Val
  | int (i : Int) : Val
  | dbl (d : Double) : Val
  deriving DecidableEq, Repr

namespace Val

/-- Template argument test `std::is_floating_point<E>::value`. -/
def is_floating_point : Val → Bool
  | dbl _ => true
  | _ => false

/-- Integral promotion `bool -> int`: `true` is `1`, `false` is `0`. -/
def promote (b : Bool) : Int :=
  if b then 1 else 0

/-- Conversion of an operand to `double`. -/
def toDouble : Val → Double
  | bool b => Double.ofInt (promote b)
  | int i => Double.ofInt i
  | dbl d => d

/-- Built-in `t == s` after the usual arithmetic conversions: `bool` and `int`
operands are compared as `int`; if one side is a `double` both are compared as
`double`. -/
def eq : Val → Val → Bool
  | bool a, bool b => decide (promote a = promote b)
  | bool a, int j => decide (promote a = j)
  | int i, bool b => decide (i = promote b)
  | int i, int j => decide (i = j)
  | t, s => Double.eq t.toDouble s.toDouble

/-- Value of `std::numeric_limits<E>::infinity()` at the type of `v`: positive
infinity for `double`, the zero value `E()` for `bool` and `int`. -/
def infinity : Val → Val
  | bool _ => bool false
  | int _ => int 0
  | dbl _ => dbl Double.infinity

/-- The two operands have the same C++ type. -/
def sameType : Val → Val → Bool
  | bool _, bool _ => true
  | int _, int _ => true
  | dbl _, dbl _ => true
  | _, _ => false

/-- Text that `stream << boolalpha << v` appends. -/
def render (showDouble : Double → String) : Val → String
  | bool b => if b then "true" else "false"
  | int i => toString i
  | dbl d => showDouble d

end Val

/-- The `double` denoted by the literal `0.0001`. -/
def tolerance : Double := Double.ofDecimal 1 10000

/-- Model of `comp_sel<false>::comp` (lines 71-77): `t == s`. -/
def comp_sel_false.comp (t s : Val) : Bool :=
  Val.eq t s

/-- Model of `comp_sel<true>::comp` (lines 79-89).  `t - s` and `fabs` are
evaluated in `double`, the type both operands are converted to. -/
def comp_sel_true.comp (t s : Val) : Bool :=
  if Val.eq t.infinity t && Val.eq s.infinity s then
    true
  else
    Double.le (Double.fabs (Double.sub t.toDouble s.toDouble)) tolerance

/-- The selection `comp_sel<is_floating_point<E1>::value>::comp(e1, e2)` made
in `evaluates` (lines 112-113): only the type of the first operand decides. -/
def comp (e1 e2 : Val) : Bool :=
  if e1.is_floating_point then comp_sel_true.comp e1 e2
  else comp_sel_false.comp e1 e2

/-! ## Streams and control -/

/-- The target of an `ostream*`. -/
inductive OStream where
  | cerr : OStream
  | cout : OStream
  | user (id : Nat) : OStream
  deriving DecidableEq, Repr

/-- Everything written, oldest first: one entry per completed line of
`<<` operations, with the stream that received it. -/
abbrev Output := List (OStream × String)

/-- What a test body can throw: something caught by
`catch(std::exception& e)`, with its `e.what()`, or anything else. -/
inductive Thrown where
  | exception (what : String) : Thrown
  | other : Thrown
  deriving DecidableEq, Repr

/-- How control leaves a call: it returns a value, an exception propagates,
or the process ends through `exit(code)`. -/
inductive Ctrl (α : Type) where
  | ret (a : α) : Ctrl α
  | raise (x : Thrown) : Ctrl α
  | exit (code : Int) : Ctrl α
  deriving DecidableEq, Repr

/-- Control comes back to the caller, by a return or by an exception; after
`exit` the process is over and it does not. -/
def Ctrl.resumes {α : Type} : Ctrl α → Bool
  | Ctrl.ret _ => true
  | Ctrl.raise _ => true
  | Ctrl.exit _ => false

/-- Text written by a call and the way control left it. -/
structure Step (α : Type) where
  out : Output
  ctrl : Ctrl α
  deriving DecidableEq, Repr

/-! ## Test bodies -/

/-- The arguments common to `evaluate` and `evaluates`. -/
structure Call where
  compare : Bool
  result : Bool
  e1 : Val
  e2 : Val
  str1 : String
  str2 : String
  file : String
  line : Int
  deriving DecidableEq, Repr

/-- An assertion expression in a test body: `this->evaluate(c...)` or
`Unit::Unittest::evaluates(c..., out, name, die)`. -/
inductive Assertion where
  | member (c : Call) : Assertion
  | static (c : Call) (out : OStream) (name : String) (die : Bool) : Assertion
  deriving DecidableEq, Repr

/-- A test body: the framework calls it makes, in order.  `done` is the end of
`run_impl`; after an assertion the body continues with `k r`, where `r` is the
value the assertion returned. -/
inductive Body where
  | done : Body
  | assert (a : Assertion) (k : Bool → Body) : Body
  | setOutputStream (o : OStream) (k : Body) : Body
  | raise (x : Thrown) : Body

/-! ## `class Unittest` -/

/-- The data members of `Unit::Unittest` (lines 166-172) and the override of
the pure virtual `run_impl` (line 155). -/
structure Unittest where
  file : String
  line : Int
  name_ : String
  errors_ : Nat
  out_ : OStream
  run_impl : Body

namespace Unittest

/-- Model of the static member template `Unittest::evaluates` (lines 105-141). -/
def evaluates (showDouble : Double → String) (compare result : Bool) (e1 e2 : Val)
    (str1 str2 file : String) (line : Int) (out : OStream) (name : String)
    (die : Bool) : Step Bool :=
  if (if result then comp e1 e2 else !comp e1 e2) then
    ⟨[], Ctrl.ret true⟩
  else
    let head :=
      if name != "" then
        sname file ++ ":" ++ toString line ++ " in " ++ "Unittest(" ++ name ++
          ") Assert Failed: "
      else
        sname file ++ ":" ++ toString line ++ " Assert Failed: "
    let s2 := Val.render showDouble e2
    let tail :=
      if compare then
        let s1 := Val.render showDouble e1
        let cmp := if result then "==" else "!="
        "compare \x7b" ++ str1 ++ "\x7d " ++ cmp ++ " \x7b" ++ str2 ++ "\x7d " ++
          "got \x7b\"" ++ s1 ++ "\"\x7d " ++ cmp ++ " \x7b\"" ++ s2 ++ "\"\x7d"
      else
        "evalute \x7b" ++ str1 ++ "\x7d == " ++ s2
    let written : Output := [(out, head ++ tail ++ "\n")]
    if die then ⟨written, Ctrl.exit 1⟩ else ⟨written, Ctrl.ret false⟩

/-- Model of the member template `Unittest::evaluate` (lines 143-153): call
`evaluates` on the test's own stream and name with `die = false`, count a
`false` result in `errors_`. -/
def evaluate (showDouble : Double → String) (self : Unittest) (compare result : Bool)
    (e1 e2 : Val) (str1 str2 file : String) (line : Int) : Unittest × Step Bool :=
  let r := evaluates showDouble compare result e1 e2 str1 str2 file line
    self.out_ self.name_ false
  match r.ctrl with
  | Ctrl.ret rlst =>
    (if !rlst then { self with errors_ := self.errors_ + 1 } else self, r)
  | _ => (self, r)

/-- Model of `Unittest::setOutputStream` (lines 162-164). -/
def setOutputStream (self : Unittest) (o : OStream) : Unittest :=
  { self with out_ := o }

end Unittest

/-- Evaluate an assertion expression inside the test `self`. -/
def Assertion.eval (showDouble : Double → String) (self : Unittest) :
    Assertion → Unittest × Step Bool
  | Assertion.member c =>
    self.evaluate showDouble c.compare c.result c.e1 c.e2 c.str1 c.str2 c.file c.line
  | Assertion.static c out name die =>
    (self, Unittest.evaluates showDouble c.compare c.result c.e1 c.e2 c.str1 c.str2
      c.file c.line out name die)

/-- State of the test, text written and control after (part of) a body. -/
structure Exec where
  self : Unittest
  out : Output
  ctrl : Ctrl Unit

/-- Execute a test body in the test `self`.  An assertion that returns hands
its value to the rest of the body; `exit` and a thrown exception end it. -/
def Body.exec (showDouble : Double → String) : Body → Unittest → Exec
  | Body.done, self => ⟨self, [], Ctrl.ret ()⟩
  | Body.assert a k, self =>
    match a.eval showDouble self with
    | (self', ⟨o, Ctrl.ret r⟩) =>
      let rest := Body.exec showDouble (k r) self'
      ⟨rest.self, o ++ rest.out, rest.ctrl⟩
    | (self', ⟨o, Ctrl.raise x⟩) => ⟨self', o, Ctrl.raise x⟩
    | (self', ⟨o, Ctrl.exit code⟩) => ⟨self', o, Ctrl.exit code⟩
  | Body.setOutputStream o k, self => Body.exec showDouble k (self.setOutputStream o)
  | Body.raise x, self => ⟨self, [], Ctrl.raise x⟩

/-- State of the test, text written and control after `run()`. -/
structure Ran where
  self : Unittest
  out : Output
  ctrl : Ctrl Bool

/-- Model of `Unittest::run` (lines 157-160): `run_impl(); return errors_;`,
the `int` converted to `bool`. -/
def Unittest.run (showDouble : Double → String) (self : Unittest) : Ran :=
  let e := Body.exec showDouble self.run_impl self
  match e.ctrl with
  | Ctrl.ret _ => ⟨e.self, e.out, Ctrl.ret (e.self.errors_ != 0)⟩
  | Ctrl.raise x => ⟨e.self, e.out, Ctrl.raise x⟩
  | Ctrl.exit code => ⟨e.self, e.out, Ctrl.exit code⟩

/-! ## Registry and driver -/

/-- Model of the constructor `Unittest::Unittest` (lines 100-103) acting on
the registry `getTests()`: the new object is pushed at the back.  (Named
`ctor` because `Unittest.Unittest` would shadow the structure.) -/
def Unittest.ctor (tests : List Unittest) (name : String) (f : String) (l : Int)
    (body : Body) : List Unittest :=
  tests ++ [{ file := sname f, line := l, name_ := name, errors_ := 0,
              out_ := OStream.cerr, run_impl := body }]

/-- Model of the macro `UNITTEST(test_name) { body }` (lines 38-43) expanded at
`FILE`:`LINE`. -/
def UNITTEST (tests : List Unittest) (test_name : String) (FILE : String) (LINE : Int)
    (body : Body) : List Unittest :=
  Unittest.ctor tests test_name FILE LINE body

/-- Result of the driver: the tests afterwards, all text written, the
positions on which `run` was invoked (oldest first) and how control left. -/
structure RunAll where
  tests : List Unittest
  out : Output
  ran : List Nat
  ctrl : Ctrl Bool

/-- The loop of `runTests` (lines 177-193) from position `i` on, with the
current value `rs` of the aggregate. -/
def runTestsFrom (showDouble : Double → String) : List Unittest → Nat → Bool → RunAll
  | [], _, rs => ⟨[], [], [], Ctrl.ret rs⟩
  | t :: ts, i, rs =>
    let r := t.run showDouble
    match r.ctrl with
    | Ctrl.ret tmp =>
      let rest := runTestsFrom showDouble ts (i + 1) (rs && !tmp)
      ⟨r.self :: rest.tests, r.out ++ rest.out, i :: rest.ran, rest.ctrl⟩
    | Ctrl.raise (Thrown.exception what) =>
      let msg := r.self.file ++ ":" ++ toString r.self.line ++ " Unittest" ++
        r.self.name_ ++ " has thrown an " ++ "uncaught exception " ++
        " with message " ++ what ++ "\n"
      let rest := runTestsFrom showDouble ts (i + 1) (rs && false)
      ⟨r.self :: rest.tests, r.out ++ (OStream.cerr, msg) :: rest.out, i :: rest.ran,
        rest.ctrl⟩
    | Ctrl.raise Thrown.other =>
      let msg := r.self.file ++ ":" ++ toString r.self.line ++ " Unittest" ++
        r.self.name_ ++ " has thrown an " ++ "uncaught exception " ++ "\n"
      let rest := runTestsFrom showDouble ts (i + 1) (rs && false)
      ⟨r.self :: rest.tests, r.out ++ (OStream.cerr, msg) :: rest.out, i :: rest.ran,
        rest.ctrl⟩
    | Ctrl.exit code => ⟨r.self :: ts, r.out, [i], Ctrl.exit code⟩

/-- Model of `Unit::runTests` (lines 175-195) on the registry `tests`. -/
def runTests (showDouble : Double → String) (tests : List Unittest) : RunAll :=
  runTestsFrom showDouble tests 0 true

/-! ## Assertion macros (lines 45-57) -/

/-- Macro `UNIT_COMPARE(compare,result,e1,e2)` expanded at `FILE`:`LINE`; `str1`
and `str2` are the stringified operands `#e1`, `#e2`. -/
def UNIT_COMPARE (compare result : Bool) (e1 e2 : Val) (str1 str2 FILE : String)
    (LINE : Int) : Assertion :=
  Assertion.member ⟨compare, result, e1, e2, str1, str2, sname FILE, LINE⟩

/-- Macro `UNIT_COMPARED(compare,result,e1,e2)` expanded at `FILE`:`LINE`. -/
def UNIT_COMPARED (compare result : Bool) (e1 e2 : Val) (str1 str2 FILE : String)
    (LINE : Int) : Assertion :=
  Assertion.static ⟨compare, result, e1, e2, str1, str2, sname FILE, LINE⟩
    OStream.cout "" true

/-- Macro `AS_EQ(e1,e2)`. -/
def AS_EQ (e1 e2 : Val) (str1 str2 FILE : String) (LINE : Int) : Assertion :=
  UNIT_COMPARE true true e1 e2 str1 str2 FILE LINE

/-- Macro `AS_NEQ(e1,e2)`. -/
def AS_NEQ (e1 e2 : Val) (str1 str2 FILE : String) (LINE : Int) : Assertion :=
  UNIT_COMPARE true false e1 e2 str1 str2 FILE LINE

/-- Macro `AS_T(e)`. -/
def AS_T (e : Val) (str FILE : String) (LINE : Int) : Assertion :=
  UNIT_COMPARE false true e (Val.bool true) str "true" FILE LINE

/-- Macro `AS_F(e)`. -/
def AS_F (e : Val) (str FILE : String) (LINE : Int) : Assertion :=
  UNIT_COMPARE false true e (Val.bool false) str "false" FILE LINE

/-- Macro `ASSERT_EQ(e1,e2)`. -/
def ASSERT_EQ (e1 e2 : Val) (str1 str2 FILE : String) (LINE : Int) : Assertion :=
  UNIT_COMPARED true true e1 e2 str1 str2 FILE LINE

/-- Macro `ASSERT_NEQ(e1,e2)`. -/
def ASSERT_NEQ (e1 e2 : Val) (str1 str2 FILE : String) (LINE : Int) : Assertion :=
  UNIT_COMPARED true false e1 e2 str1 str2 FILE LINE

/-- Macro `ASSERT_T(e)`. -/
def ASSERT_T (e : Val) (str FILE : String) (LINE : Int) : Assertion :=
  UNIT_COMPARED false true e (Val.bool true) str "true" FILE LINE

/-- Macro `ASSERT_F(e)`. -/
def ASSERT_F (e : Val) (str FILE : String) (LINE : Int) : Assertion :=
  UNIT_COMPARED false true e (Val.bool false) str "false" FILE LINE

/-! ## Derived notions used in the statements -/

/-- The condition tested at lines 111-113 of `evaluates`: the assertion
succeeds when the comparator agrees with `result`. -/
def success (result : Bool) (e1 e2 : Val) : Bool :=
  if result then comp e1 e2 else !comp e1 e2

/-- The diagnostic line as the specification words it (section 4.3, step 4):
`<shortFile>:<line>[ in Test(<name>)] Assert Failed: ` followed by the compare
or the evaluate text and a newline. -/
def specDiagnostic (showDouble : Double → String) (compare result : Bool) (e1 e2 : Val)
    (str1 str2 file : String) (line : Int) (name : String) : String :=
  let op := if result then "==" else "!="
  sname file ++ ":" ++ toString line ++
    (if name != "" then " in Test(" ++ name ++ ")" else "") ++ " Assert Failed: " ++
    (if compare then
      "compare \x7b" ++ str1 ++ "\x7d " ++ op ++ " \x7b" ++ str2 ++ "\x7d got \x7b\"" ++
        Val.render showDouble e1 ++ "\"\x7d " ++ op ++ " \x7b\"" ++
        Val.render showDouble e2 ++ "\"\x7d"
    else
      "evaluate \x7b" ++ str1 ++ "\x7d == " ++ Val.render showDouble e2) ++ "\n"

/-- The assertion calls a body makes, in order, each with the test as it is
when the call is made.  A call that does not return is the last one. -/
def Body.trace (showDouble : Double → String) : Body → Unittest → List (Assertion × Unittest)
  | Body.done, _ => []
  | Body.assert a k, self =>
    (a, self) ::
      match a.eval showDouble self with
      | (self', ⟨_, Ctrl.ret r⟩) => Body.trace showDouble (k r) self'
      | _ => []
  | Body.setOutputStream o k, self => Body.trace showDouble k (self.setOutputStream o)
  | Body.raise _, _ => []

/-- The arguments of an assertion call. -/
def Assertion.call : Assertion → Call
  | Assertion.member c => c
  | Assertion.static c _ _ _ => c

/-- The `die` flag of an assertion call; `evaluate` passes `false`. -/
def Assertion.fatal : Assertion → Bool
  | Assertion.member _ => false
  | Assertion.static _ _ _ die => die

/-- The call is a call of the member `evaluate`. -/
def Assertion.isMember : Assertion → Bool
  | Assertion.member _ => true
  | Assertion.static _ _ _ _ => false

/-- The (compareMode, expectEqual, fatal) parameters an assertion call passes
to the engine. -/
def Assertion.params (a : Assertion) : Bool × Bool × Bool :=
  (a.call.compare, a.call.result, a.fatal)

/-- The call, made in the recorded state, returned `false`: a failed assertion
that did not end the process. -/
def returnedFalse (showDouble : Double → String) (p : Assertion × Unittest) : Bool :=
  decide ((p.1.eval showDouble p.2).2.ctrl = Ctrl.ret false)

/-- Number of assertion calls of the body that failed without ending the
process. -/
def Body.failures (showDouble : Double → String) (b : Body) (self : Unittest) : Nat :=
  ((Body.trace showDouble b self).filter (returnedFalse showDouble)).length

/-- Number of calls of `evaluate` of the body that failed. -/
def Body.recorded (showDouble : Double → String) (b : Body) (self : Unittest) : Nat :=
  ((Body.trace showDouble b self).filter
    (fun p => p.1.isMember && returnedFalse showDouble p)).length

/-- The registry after the tests `ds` (name, source file, source line, body)
were constructed in this order, starting from the registry `tests`. -/
def declareAll (tests : List Unittest) (ds : List (String × String × Int × Body)) :
    List Unittest :=
  ds.foldl (fun reg d => Unittest.ctor reg d.1 d.2.1 d.2.2.1 d.2.2.2) tests

/-- Number of newline characters in a text. -/
def newlines (s : String) : Nat :=
  s.data.count '\n'

/-- Number of text lines in the output, all streams taken together: the
newline characters written. -/
def lineCount (o : Output) : Nat :=
  (o.map fun c => newlines c.2).sum

/-- None of the texts the call puts into a diagnostic contains a newline. -/
def Call.clean (showDouble : Double → String) (c : Call) : Bool :=
  decide (newlines c.str1 = 0) && decide (newlines c.str2 = 0) &&
    decide (newlines (sname c.file) = 0) &&
    decide (newlines (Val.render showDouble c.e1) = 0) &&
    decide (newlines (Val.render showDouble c.e2) = 0)

/-- None of the texts of the assertion call contains a newline. -/
def Assertion.clean (showDouble : Double → String) : Assertion → Bool
  | Assertion.member c => c.clean showDouble
  | Assertion.static c _ name _ => c.clean showDouble && decide (newlines name = 0)

/-- The message of the exception, if it has one, contains no newline. -/
def Thrown.clean : Thrown → Bool
  | Thrown.exception what => decide (newlines what = 0)
  | Thrown.other => true

/-- No assertion call and no exception message of the body, on any branch,
carries a text with a newline. -/
def Body.clean (showDouble : Double → String) : Body → Bool
  | Body.done => true
  | Body.assert a k =>
    a.clean showDouble && Body.clean showDouble (k true) && Body.clean showDouble (k false)
  | Body.setOutputStream _ k => Body.clean showDouble k
  | Body.raise x => x.clean

/-- Neither the file name, nor the name, nor the body of the test carries a
text with a newline. -/
def Unittest.clean (showDouble : Double → String) (t : Unittest) : Bool :=
  decide (newlines t.file = 0) && decide (newlines t.name_ = 0) &&
    t.run_impl.clean showDouble

/-- Control left through an exception. -/
def Ctrl.raised {α : Type} : Ctrl α → Bool
  | Ctrl.raise _ => true
  | _ => false

/-- The eight assertion forms of the assertion surface. -/
inductive Form where
  | equality : Form
  | inequality : Form
  | truthy : Form
  | falsy : Form
  | assertedEquality : Form
  | assertedInequality : Form
  | assertedTruthy : Form
  | assertedFalsy : Form
  deriving DecidableEq, Repr

/-- The macro each form is written with; the single forms take the operand
`e1` only. -/
def Form.expand (f : Form) (e1 e2 : Val) (str1 str2 FILE : String) (LINE : Int) :
    Assertion :=
  match f with
  | Form.equality => AS_EQ e1 e2 str1 str2 FILE LINE
  | Form.inequality => AS_NEQ e1 e2 str1 str2 FILE LINE
  | Form.truthy => AS_T e1 str1 FILE LINE
  | Form.falsy => AS_F e1 str1 FILE LINE
  | Form.assertedEquality => ASSERT_EQ e1 e2 str1 str2 FILE LINE
  | Form.assertedInequality => ASSERT_NEQ e1 e2 str1 str2 FILE LINE
  | Form.assertedTruthy => ASSERT_T e1 str1 FILE LINE
  | Form.assertedFalsy => ASSERT_F e1 str1 FILE LINE

/-- The (compareMode, expectEqual, fatal) columns of the assertion-surface
table of the specification (section 6), row by row. -/
def specTable : Form → Bool × Bool × Bool
  | Form.equality => (true, true, false)
  | Form.inequality => (true, false, false)
  | Form.truthy => (false, true, false)
  | Form.falsy => (false, false, false)
  | Form.assertedEquality => (true, true, true)
  | Form.assertedInequality => (true, false, true)
  | Form.assertedTruthy => (false, true, true)
  | Form.assertedFalsy => (false, false, true)

/-! ## Concrete inputs used by the examples -/

/-- A printer for `double` used where no `double` is printed. -/
def plainDouble : Double → String := fun _ => "double"

/-- The test `fancyname` of the header example, as its constructor leaves it. -/
def fancyname : Unittest :=
  ⟨"unit.cpp", 8, "fancyname", 0, OStream.cerr, Body.done⟩

/-- The `double` denoted by the literal `1.00005`. -/
def d1_00005 : Double := Double.ofDecimal 100005 100000

/-- The `double` denoted by the literal `1.0`. -/
def d1 : Double := Double.ofDecimal 1 1

/-- Three tests declared in `t/a.cpp`: the first throws something that is not
a `std::exception`, the second contains `ASSERT_T(false)`, the third is empty. -/
def haltingRegistry : List Unittest :=
  UNITTEST
    (UNITTEST
      (UNITTEST [] "first" "t/a.cpp" 3 (Body.raise Thrown.other))
      "second" "t/a.cpp" 7
      (Body.assert (ASSERT_T (Val.bool false) "false" "t/a.cpp" 8) fun _ => Body.done))
    "third" "t/a.cpp" 11 Body.done

/-- Three tests declared in `t/b.cpp`: the first passes `AS_EQ(42, 42)`, the
second throws `std::runtime_error("boom")`, the third fails `AS_T(false)`. -/
def throwingRegistry : List Unittest :=
  UNITTEST
    (UNITTEST
      (UNITTEST [] "first" "t/b.cpp" 3
        (Body.assert (AS_EQ (Val.int 42) (Val.int 42) "42" "42" "t/b.cpp" 4)
          fun _ => Body.done))
      "second" "t/b.cpp" 7 (Body.raise (Thrown.exception "boom")))
    "third" "t/b.cpp" 11
    (Body.assert (AS_T (Val.bool false) "false" "t/b.cpp" 12) fun _ => Body.done)

/-- A test declared in `t/c.cpp` that passes `AS_EQ(42, 42)`. -/
def assertingFirst : Unittest :=
  ⟨"c.cpp", 3, "first", 0, OStream.cerr,
    Body.assert (AS_EQ (Val.int 42) (Val.int 42) "42" "42" "t/c.cpp" 4) fun _ => Body.done⟩

/-- A test declared in `t/c.cpp` with the body
`AS_T(false); ASSERT_EQ(42, 43); AS_T(true);`. -/
def assertingSecond : Unittest :=
  ⟨"c.cpp", 7, "second", 0, OStream.cerr,
    Body.assert (AS_T (Val.bool false) "false" "t/c.cpp" 8) fun _ =>
      Body.assert (ASSERT_EQ (Val.int 42) (Val.int 43) "42" "43" "t/c.cpp" 9) fun _ =>
        Body.assert (AS_T (Val.bool true) "true" "t/c.cpp" 10) fun _ => Body.done⟩

/-- A test declared in `t/c.cpp` with an empty body. -/
def assertingThird : Unittest :=
  ⟨"c.cpp", 13, "third", 0, OStream.cerr, Body.done⟩

/-- A test declared in `t/d.cpp` whose body throws
`std::runtime_error("first\nsecond")`. -/
def newlineRegistry : List Unittest :=
  UNITTEST [] "multi" "t/d.cpp" 3 (Body.raise (Thrown.exception "first\nsecond"))

/-- Two tests: `T1`, declared in `src/t1.cpp`, fails `AS_EQ(42, 43)` at line 4;
`T2`, declared in `src/t2.cpp`, passes `AS_T(true)`. -/
def twoTests : List Unittest :=
  UNITTEST
    (UNITTEST [] "T1" "src/t1.cpp" 3
      (Body.assert (AS_EQ (Val.int 42) (Val.int 43) "42" "43" "src/t1.cpp" 4)
        fun _ => Body.done))
    "T2" "src/t2.cpp" 3
    (Body.assert (AS_T (Val.bool true) "true" "src/t2.cpp" 4) fun _ => Body.done)

/-- A test declared in `t/c.cpp` with the body
`AS_T(false); throw std::runtime_error("boom");`. -/
def raisingSecond : Unittest :=
  ⟨"c.cpp", 7, "second", 0, OStream.cerr,
    Body.assert (AS_T (Val.bool false) "false" "t/c.cpp" 8) fun _ =>
      Body.raise (Thrown.exception "boom")⟩

/-! ## The driver `runTests` -/

/-- A test passes: its body returns normally and leaves `errors_` at zero. -/
theorem run_ctrl_ret_false_iff (sd : Double → String) (t : Unittest) :
    (t.run sd).ctrl = Ctrl.ret false ↔
      (Body.exec sd t.run_impl t).ctrl = Ctrl.ret () ∧
        (Body.exec sd t.run_impl t).self.errors_ = 0 := by
  unfold Unittest.run
  cases h : (Body.exec sd t.run_impl t).ctrl <;> simp [h]

/-- The test as `run` leaves it is the test as its body leaves it. -/
theorem run_self (sd : Double → String) (t : Unittest) :
    (t.run sd).self = (Body.exec sd t.run_impl t).self := by
  unfold Unittest.run
  cases h : (Body.exec sd t.run_impl t).ctrl <;> simp [h]

/-- `run` raises exactly what the body raises. -/
theorem run_ctrl_raise_iff (sd : Double → String) (t : Unittest) (x : Thrown) :
    (t.run sd).ctrl = Ctrl.raise x ↔
      (Body.exec sd t.run_impl t).ctrl = Ctrl.raise x := by
  unfold Unittest.run
  cases h : (Body.exec sd t.run_impl t).ctrl <;> simp [h]

/-- The loop returns `true` exactly when the aggregate was still `true` and
every remaining test's `run` returns `false`. -/
theorem runTestsFrom_ctrl_true (sd : Double → String) (ts : List Unittest) :
    ∀ (i : Nat) (rs : Bool), (runTestsFrom sd ts i rs).ctrl = Ctrl.ret true ↔
      rs = true ∧ ∀ t ∈ ts, (t.run sd).ctrl = Ctrl.ret false := by
  induction ts with
  | nil => intro i rs; simp [runTestsFrom]
  | cons t ts ih =>
    intro i rs
    unfold runTestsFrom
    cases h : (t.run sd).ctrl with
    | ret tmp =>
      simp only [h, ih, List.mem_cons, forall_eq_or_imp]
      cases tmp <;> simp
    | raise x => cases x <;> simp [h, ih]
    | exit code => simp [h]

/-- When the `run` of every test returns or raises, the loop invokes `run` on
every remaining position in order, leaves every test as its single `run`
leaves it, and returns. -/
theorem runTestsFrom_of_no_exit (sd : Double → String) (ts : List Unittest)
    (hlive : ∀ t ∈ ts, (t.run sd).ctrl.resumes = true) :
    ∀ (i : Nat) (rs : Bool),
      (runTestsFrom sd ts i rs).ran = List.range' i ts.length ∧
      (runTestsFrom sd ts i rs).tests = ts.map (fun t => (t.run sd).self) ∧
      ∃ b, (runTestsFrom sd ts i rs).ctrl = Ctrl.ret b := by
  induction ts with
  | nil => intro i rs; simp [runTestsFrom]
  | cons t ts ih =>
    intro i rs
    have ht := hlive t (List.mem_cons_self t ts)
    have ih' := ih (fun u hu => hlive u (List.mem_cons_of_mem t hu))
    unfold runTestsFrom
    cases h : (t.run sd).ctrl with
    | ret tmp =>
      obtain ⟨h1, h2, b, h3⟩ := ih' (i + 1) (rs && !tmp)
      simp [h, h1, h2, h3, List.range'_succ]
    | raise x =>
      obtain ⟨h1, h2, b, h3⟩ := ih' (i + 1) false
      cases x <;> simp [h, h1, h2, h3, List.range'_succ]
    | exit code => rw [h] at ht; exact absurd ht (by simp [Ctrl.resumes])

/-- C1: `runTests` returns `true` if and only if, for every registered test,
`run` returned, the failure count afterwards is zero and the body raised no
error; on the empty registry it returns `true`. -/
theorem runTests_true_iff (sd : Double → String) (tests : List Unittest) :
    ((runTests sd tests).ctrl = Ctrl.ret true ↔
      ∀ t ∈ tests,
        (∃ b, (t.run sd).ctrl = Ctrl.ret b) ∧ (t.run sd).self.errors_ = 0 ∧
          ∀ x, (Body.exec sd t.run_impl t).ctrl ≠ Ctrl.raise x) ∧
    (runTests sd []).ctrl = Ctrl.ret true := by
  refine ⟨?_, rfl⟩
  unfold runTests
  rw [runTestsFrom_ctrl_true]
  simp only [true_and]
  refine forall_congr' fun t => forall_congr' fun _ => ?_
  rw [run_ctrl_ret_false_iff, run_self]
  unfold Unittest.run
  cases h : (Body.exec sd t.run_impl t).ctrl <;> simp [h]

/-- C2, the claim as stated fails: in `haltingRegistry` the body of the first
test raises an error, the second test ends the process in `ASSERT_T(false)`,
so `run` is never invoked on the third test and `runTests` does not return. -/
theorem runTests_raise_then_exit :
    haltingRegistry.map (fun t => (t.run plainDouble).ctrl) =
        [Ctrl.raise Thrown.other, Ctrl.exit 1, Ctrl.ret false] ∧
      (runTests plainDouble haltingRegistry).ran = [0, 1] ∧
      (runTests plainDouble haltingRegistry).ran ≠ List.range haltingRegistry.length ∧
      (runTests plainDouble haltingRegistry).ctrl = Ctrl.exit 1 ∧
      (runTests plainDouble haltingRegistry).ctrl ≠ Ctrl.ret false := by
  decide

/-- C2 as amended: if the body of the test at position `K` raises an error and
the `run` of every registered test returns or raises (none ends the process
through a failing fatal assertion), then `runTests` invokes `run` exactly once
on every position, in registration order, leaves every test as its own `run`
leaves it, and returns `false` (the error is not propagated). -/
theorem runTests_isolates_raise (sd : Double → String) (tests : List Unittest)
    (K : Nat) (hK : K < tests.length) (x : Thrown)
    (hraise : (Body.exec sd (tests.get ⟨K, hK⟩).run_impl (tests.get ⟨K, hK⟩)).ctrl =
      Ctrl.raise x)
    (hlive : ∀ t ∈ tests, (t.run sd).ctrl.resumes = true) :
    (runTests sd tests).ran = List.range tests.length ∧
      (runTests sd tests).tests = tests.map (fun t => (t.run sd).self) ∧
      (runTests sd tests).ctrl = Ctrl.ret false := by
  obtain ⟨h1, h2, b, h3⟩ := runTestsFrom_of_no_exit sd tests hlive 0 true
  refine ⟨by rw [runTests, h1, List.range_eq_range'], h2, ?_⟩
  unfold runTests
  rw [h3]
  cases b with
  | false => rfl
  | true =>
    have hall := ((runTestsFrom_ctrl_true sd tests 0 true).1 h3).2
      (tests.get ⟨K, hK⟩) (List.get_mem tests K hK)
    rw [← run_ctrl_raise_iff] at hraise
    rw [hraise] at hall
    exact absurd hall (by simp)

/-- C2 as amended, at `throwingRegistry` with `K = 1`: all three tests are run
in order and the result is `false`. -/
theorem runTests_isolates_raise_witness :
    (runTests plainDouble throwingRegistry).ran = List.range throwingRegistry.length ∧
      (runTests plainDouble throwingRegistry).tests =
        throwingRegistry.map (fun t => (t.run plainDouble).self) ∧
      (runTests plainDouble throwingRegistry).ctrl = Ctrl.ret false :=
  runTests_isolates_raise plainDouble throwingRegistry 1 (by decide)
    (Thrown.exception "boom") (by decide) (by decide)

/-! ## The assertion engine -/

/-- What `evaluates` returns when it returns: with `die = false` it always
returns the success condition. -/
theorem evaluates_ctrl (sd : Double → String) (compare result : Bool) (e1 e2 : Val)
    (str1 str2 file : String) (line : Int) (out : OStream) (name : String) :
    (Unittest.evaluates sd compare result e1 e2 str1 str2 file line out name false).ctrl =
      Ctrl.ret (success result e1 e2) := by
  unfold Unittest.evaluates success
  cases result <;> cases comp e1 e2 <;> simp

/-- The value and the new state of `evaluate` in terms of the success
condition. -/
theorem evaluate_eq (sd : Double → String) (self : Unittest) (compare result : Bool)
    (e1 e2 : Val) (str1 str2 file : String) (line : Int) :
    (self.evaluate sd compare result e1 e2 str1 str2 file line).2.ctrl =
        Ctrl.ret (success result e1 e2) ∧
      (self.evaluate sd compare result e1 e2 str1 str2 file line).1 =
        (if success result e1 e2 then self
          else { self with errors_ := self.errors_ + 1 }) := by
  have h := evaluates_ctrl sd compare result e1 e2 str1 str2 file line self.out_ self.name_
  unfold Unittest.evaluate
  simp only [h]
  cases success result e1 e2 <;> simp [h]

/-- C3: a non-fatal assertion returns its success condition: `false` when it
fails, `true` when it succeeds.  A failing one adds exactly 1 to the failure
count and changes nothing else, a succeeding one leaves the test unchanged.  In
both cases `evaluate` returns, so the body goes on with the statements that
follow it. -/
theorem evaluate_counts_failure (sd : Double → String) (self : Unittest)
    (compare result : Bool) (e1 e2 : Val) (str1 str2 file : String) (line : Int)
    (k : Bool → Body) :
    (self.evaluate sd compare result e1 e2 str1 str2 file line).2.ctrl =
        Ctrl.ret (success result e1 e2) ∧
      (self.evaluate sd compare result e1 e2 str1 str2 file line).1.errors_ =
        self.errors_ + (if success result e1 e2 then 0 else 1) ∧
      (self.evaluate sd compare result e1 e2 str1 str2 file line).1 =
        (if success result e1 e2 then self
          else { self with errors_ := self.errors_ + 1 }) ∧
      Body.exec sd
          (Body.assert
            (Assertion.member ⟨compare, result, e1, e2, str1, str2, file, line⟩) k) self =
        ⟨(Body.exec sd (k (success result e1 e2))
            (self.evaluate sd compare result e1 e2 str1 str2 file line).1).self,
          (self.evaluate sd compare result e1 e2 str1 str2 file line).2.out ++
            (Body.exec sd (k (success result e1 e2))
              (self.evaluate sd compare result e1 e2 str1 str2 file line).1).out,
          (Body.exec sd (k (success result e1 e2))
            (self.evaluate sd compare result e1 e2 str1 str2 file line).1).ctrl⟩ := by
  obtain ⟨h1, h2⟩ := evaluate_eq sd self compare result e1 e2 str1 str2 file line
  refine ⟨h1, ?_, ?_, ?_⟩
  · rw [h2]; cases success result e1 e2 <;> simp
  · exact h2
  · rw [Body.exec]
    simp only [Assertion.eval]
    generalize self.evaluate sd compare result e1 e2 str1 str2 file line = r at h1 ⊢
    obtain ⟨u, o, c⟩ := r
    simp only at h1
    subst h1
    rfl

/-- C4: on two operands of the same non-floating-point type the equality
compare returns `true` if and only if the operands are equal, and `false` if
and only if they differ. -/
theorem evaluate_equal_nonfloating (sd : Double → String) (self : Unittest) (a b : Val)
    (str1 str2 file : String) (line : Int)
    (hty : a.sameType b = true) (hnf : a.is_floating_point = false) :
    ((self.evaluate sd true true a b str1 str2 file line).2.ctrl = Ctrl.ret true ↔
        a = b) ∧
      ((self.evaluate sd true true a b str1 str2 file line).2.ctrl = Ctrl.ret false ↔
        a ≠ b) ∧
      (self.evaluate sd true true a a str1 str2 file line).2.ctrl = Ctrl.ret true := by
  have key : ∀ c : Val, a.sameType c = true → (success true a c = true ↔ a = c) := by
    intro c hc
    cases a <;> cases c <;>
      simp_all [success, comp, comp_sel_false.comp, Val.eq, Val.sameType,
        Val.is_floating_point, Val.promote]
    rename_i p q
    cases p <;> cases q <;> simp
  have haa : a.sameType a = true := by cases a <;> rfl
  rw [(evaluate_eq sd self true true a b str1 str2 file line).1,
    (evaluate_eq sd self true true a a str1 str2 file line).1]
  refine ⟨?_, ?_, ?_⟩
  · rw [← key b hty]; simp
  · rw [Ne, ← key b hty]; simp
  · rw [(key a haa).2 rfl]

/-- C4 at the header example `AS_EQ(42, 42)`, and at `42` against `43`. -/
theorem evaluate_equal_nonfloating_witness :
    ((fancyname.evaluate
          plainDouble true true (Val.int 42) (Val.int 43) "42" "43" "unit.cpp" 13).2.ctrl =
        Ctrl.ret true ↔ Val.int 42 = Val.int 43) ∧
      ((fancyname.evaluate
          plainDouble true true (Val.int 42) (Val.int 43) "42" "43" "unit.cpp" 13).2.ctrl =
        Ctrl.ret false ↔ Val.int 42 ≠ Val.int 43) ∧
      (fancyname.evaluate
          plainDouble true true (Val.int 42) (Val.int 42) "42" "43" "unit.cpp" 13).2.ctrl =
        Ctrl.ret true :=
  evaluate_equal_nonfloating plainDouble fancyname
    (Val.int 42) (Val.int 43) "42" "43" "unit.cpp" 13 (by decide) (by decide)

/-- C5: for all operands, of any of the operand types, and every
`compareMode`, the value of the assertion with `expectEqual = false` is the
negation of its value with `expectEqual = true`; the same holds of the success
condition that the fatal form tests; `evaluate(true, false, 42, 43)` returns
`true`. -/
theorem evaluate_inequality_is_negation (sd : Double → String) (self : Unittest)
    (compare : Bool) (e1 e2 : Val) (str1 str2 file : String) (line : Int) :
    (∃ b, (self.evaluate sd compare true e1 e2 str1 str2 file line).2.ctrl = Ctrl.ret b ∧
        (self.evaluate sd compare false e1 e2 str1 str2 file line).2.ctrl =
          Ctrl.ret (!b)) ∧
      success false e1 e2 = !success true e1 e2 ∧
      (self.evaluate sd true false (Val.int 42) (Val.int 43) str1 str2 file line).2.ctrl =
        Ctrl.ret true := by
  refine ⟨⟨success true e1 e2, ?_, ?_⟩, ?_, ?_⟩
  · exact (evaluate_eq sd self compare true e1 e2 str1 str2 file line).1
  · rw [(evaluate_eq sd self compare false e1 e2 str1 str2 file line).1]
    simp [success]
  · simp [success]
  · rw [(evaluate_eq sd self true false _ _ str1 str2 file line).1]
    rfl

/-! ## The floating-point comparator -/

/-- The binary search keeps `2 ^ acc` below `n`. -/
theorem foldl_pow_le (n : Nat) (l : List Nat) :
    ∀ acc : Nat, 2 ^ acc ≤ n →
      2 ^ l.foldl (fun acc s => if 2 ^ (acc + s) ≤ n then acc + s else acc) acc ≤ n := by
  induction l with
  | nil => intro acc h; simpa using h
  | cons s l ih =>
    intro acc h
    simp only [List.foldl_cons]
    split
    · exact ih _ (by assumption)
    · exact ih _ h

/-- The digit position found is not above the leading digit of `n`. -/
theorem pow_log2Small_le (n : Nat) (hn : 0 < n) : 2 ^ log2Small n ≤ n :=
  foldl_pow_le n _ 0 (by simpa using hn)

/-- Rounding to the nearest multiple of `d` does not pass a multiple of `d`
that is at least `n`. -/
theorem rne_mul_le (n d T : Nat) (hd : 0 < d) (hdiv : d ∣ T) (hn : n ≤ T) :
    rne n d * d ≤ T := by
  obtain ⟨k, rfl⟩ := hdiv
  have hq : n / d ≤ k := by
    rw [Nat.div_le_iff_le_mul_add_pred hd]
    have : d * k = k * d := Nat.mul_comm _ _
    omega
  have hle : rne n d ≤ k := by
    unfold rne
    simp only
    split
    · exact hq
    · have hr : n % d ≠ 0 := by
        intro h0
        rename_i h
        rw [h0] at h
        omega
      have hlt : n / d < k := by
        rcases Nat.lt_or_ge (n / d) k with h | h
        · exact h
        · exfalso
          have hk : n / d = k := le_antisymm hq h
          have := Nat.div_add_mod n d
          rw [hk] at this
          omega
      split
      · omega
      · split <;> omega
  calc rne n d * d ≤ k * d := Nat.mul_le_mul_right d hle
    _ = d * k := Nat.mul_comm _ _

/-- The binary search ends just below the first power of two above `n`. -/
theorem foldl_lt_pow (n : Nat) (l : List Nat) :
    ∀ acc b : Nat, List.Chain (fun a s => a = 2 * s) b l →
      (b :: l).getLast (List.cons_ne_nil b l) = 1 → n < 2 ^ (acc + b) →
      n < 2 ^ (l.foldl (fun acc s => if 2 ^ (acc + s) ≤ n then acc + s else acc) acc + 1) := by
  induction l with
  | nil =>
    intro acc b _ hlast h
    simp only [List.getLast_singleton] at hlast
    simpa [hlast] using h
  | cons s l ih =>
    intro acc b hch hlast h
    rw [List.chain_cons] at hch
    obtain ⟨hb, hch⟩ := hch
    rw [List.getLast_cons (List.cons_ne_nil s l)] at hlast
    simp only [List.foldl_cons]
    split
    · refine ih _ s hch hlast ?_
      rw [hb] at h
      have : acc + 2 * s = acc + s + s := by omega
      rwa [this] at h
    · refine ih _ s hch hlast ?_
      omega

/-- Below `2^4096` the search result is the position of the leading digit: `n`
is below the next power of two. -/
theorem lt_pow_log2Small (n : Nat) (hn : n < 2 ^ 4096) : n < 2 ^ (log2Small n + 1) :=
  foldl_lt_pow n _ 0 4096 (by simp) (by simp) (by simpa using hn)

/-- Rounding to nearest never goes below the quotient. -/
theorem div_le_rne (n d : Nat) : n / d ≤ rne n d := by
  unfold rne
  simp only
  split
  · exact le_rfl
  · split
    · omega
    · split <;> omega

/-- Below the midpoint between `M` and `M + 1` rounding gives at most `M`. -/
theorem rne_le_of_two_mul_lt (n d M : Nat) (hd : 0 < d) (h : 2 * n < (2 * M + 1) * d) :
    rne n d ≤ M := by
  have hn := Nat.div_add_mod n d
  have hr := Nat.mod_lt n hd
  have hqM : n / d ≤ M := by
    by_contra hc
    have h1 : M + 1 ≤ n / d := by omega
    have h2 : d * (M + 1) ≤ d * (n / d) := Nat.mul_le_mul_left d h1
    have h3 : (2 * M + 1) * d = 2 * (d * M) + d := by ring
    have h4 : d * (M + 1) = d * M + d := by ring
    omega
  unfold rne
  simp only
  rcases Nat.lt_or_ge (n / d) M with hlt | hge
  · split
    · omega
    · split
      · omega
      · split <;> omega
  · have hq : n / d = M := le_antisymm hqM hge
    have h3 : (2 * M + 1) * d = 2 * (d * M) + d := by ring
    rw [hq] at hn
    have : 2 * (n % d) < d := by omega
    rw [if_pos this, hq]

/-- From the midpoint between an odd `M` and `M + 1` on, rounding gives at
least `M + 1`: the tie goes to the even neighbour. -/
theorem succ_le_rne_of_le_two_mul (n d M : Nat) (hd : 0 < d) (hodd : M % 2 = 1)
    (h : (2 * M + 1) * d ≤ 2 * n) : M + 1 ≤ rne n d := by
  have hn := Nat.div_add_mod n d
  have hr := Nat.mod_lt n hd
  have h3 : (2 * M + 1) * d = 2 * (d * M) + d := by ring
  have hqM : M ≤ n / d := by
    rw [Nat.le_div_iff_mul_le hd]
    have : M * d = d * M := Nat.mul_comm _ _
    omega
  rcases Nat.lt_or_ge M (n / d) with hlt | hge
  · exact le_trans hlt (div_le_rne n d)
  · have hq : n / d = M := le_antisymm hge hqM
    rw [hq] at hn
    unfold rne
    simp only
    have h1 : ¬ 2 * (n % d) < d := by omega
    rw [if_neg h1, hq]
    split
    · exact le_rfl
    · rw [if_neg (by omega)]

/-- Rounding a magnitude to binary64 stays at or below `M * 2^1008`, for the
odd 53-bit `M` of the literal `0.0001`, exactly when the magnitude is below
`M * 2^1008 + 2^1007`. -/
theorem roundUnits_le_iff (n : Nat) :
    roundUnits n 1 ≤ 7378697629483821 * 2 ^ 1008 ↔
      2 * n < (2 * 7378697629483821 + 1) * 2 ^ 1008 := by
  have hM1 : 2 ^ 1060 ≤ 7378697629483821 * 2 ^ 1008 := by decide
  have hM2 : (2 * 7378697629483821 + 1) * 2 ^ 1008 < 2 ^ 1062 := by decide
  have hM3 : 7378697629483821 % 2 = 1 := by decide
  have hc : (2 : Nat) ^ 1008 = 2 * 2 ^ 1007 := by decide
  have hsplit : (2 * 7378697629483821 + 1) * 2 ^ 1008 =
      2 * (7378697629483821 * 2 ^ 1008) + 2 ^ 1008 := by ring
  unfold roundUnits
  simp only [Nat.div_one, one_mul]
  generalize hL : log2Small n = L
  constructor
  · -- rounding stays below: the magnitude is below the midpoint
    intro hle
    by_contra hcon
    have hge : (2 * 7378697629483821 + 1) * 2 ^ 1008 ≤ 2 * n := by omega
    have hpos : 0 < n := by
      have : 0 < (2 * 7378697629483821 + 1) * 2 ^ 1008 := by positivity
      omega
    have hpow : 2 ^ L ≤ n := by rw [← hL]; exact pow_log2Small_le n hpos
    have hdpos : 0 < 2 ^ (L + 1 - 53) := by positivity
    rcases Nat.lt_trichotomy (L + 1 - 53) 1008 with hsh | hsh | hsh
    · -- finer grid: the midpoint is on the grid
      have hdvd : 2 ^ (L + 1 - 53) ∣ (2 * 7378697629483821 + 1) * 2 ^ 1007 :=
        Dvd.dvd.mul_left (pow_dvd_pow 2 (by omega)) _
      have hK : (2 * 7378697629483821 + 1) * 2 ^ 1007 ≤ n := by
        have : (2 * 7378697629483821 + 1) * 2 ^ 1008 =
            2 * ((2 * 7378697629483821 + 1) * 2 ^ 1007) := by rw [hc]; ring
        omega
      obtain ⟨k, hk⟩ := hdvd
      have h1 : k ≤ n / 2 ^ (L + 1 - 53) := by
        rw [Nat.le_div_iff_mul_le hdpos, Nat.mul_comm, ← hk]; exact hK
      have h2 := div_le_rne n (2 ^ (L + 1 - 53))
      have h3 : k * 2 ^ (L + 1 - 53) ≤ rne n (2 ^ (L + 1 - 53)) * 2 ^ (L + 1 - 53) :=
        Nat.mul_le_mul_right _ (le_trans h1 h2)
      have h4 : k * 2 ^ (L + 1 - 53) = (2 * 7378697629483821 + 1) * 2 ^ 1007 := by
        rw [hk, Nat.mul_comm]
      have h5 : (2 * 7378697629483821 + 1) * 2 ^ 1007 =
          7378697629483821 * 2 ^ 1008 + 2 ^ 1007 := by rw [hc]; ring
      have h6 : 0 < 2 ^ 1007 := by positivity
      omega
    · -- the grid of the literal: the tie goes to the even neighbour above
      rw [hsh] at hle
      have h1 := succ_le_rne_of_le_two_mul n (2 ^ 1008) 7378697629483821 (by positivity) hM3 hge
      have h2 : (7378697629483821 + 1) * 2 ^ 1008 ≤ rne n (2 ^ 1008) * 2 ^ 1008 :=
        Nat.mul_le_mul_right _ h1
      have h3 : (7378697629483821 + 1) * 2 ^ 1008 =
          7378697629483821 * 2 ^ 1008 + 2 ^ 1008 := by ring
      have h6 : 0 < 2 ^ 1008 := by positivity
      omega
    · -- coarser grid: the magnitude is already above `2^1061`
      have hLs : L = (L + 1 - 53) + 52 := by omega
      have h1 : 2 ^ 52 ≤ n / 2 ^ (L + 1 - 53) := by
        rw [Nat.le_div_iff_mul_le hdpos, ← pow_add, Nat.add_comm, ← hLs]; exact hpow
      have h2 := div_le_rne n (2 ^ (L + 1 - 53))
      have h3 : 2 ^ 52 * 2 ^ (L + 1 - 53) ≤ rne n (2 ^ (L + 1 - 53)) * 2 ^ (L + 1 - 53) :=
        Nat.mul_le_mul_right _ (le_trans h1 h2)
      have h4 : 2 ^ 52 * 2 ^ 1009 ≤ 2 ^ 52 * 2 ^ (L + 1 - 53) :=
        Nat.mul_le_mul_left _ (Nat.pow_le_pow_right (by norm_num) hsh)
      have h5 : 7378697629483821 * 2 ^ 1008 < 2 ^ 52 * 2 ^ 1009 := by decide
      omega
  · intro hlt
    rcases Nat.lt_or_ge (7378697629483821 * 2 ^ 1008) n with hgt | hle
    · -- above the literal but below the midpoint: the grid is the literal's
      have hn4096 : n < 2 ^ 4096 := by
        have : (2 : Nat) ^ 1062 ≤ 2 ^ 4096 := Nat.pow_le_pow_right (by norm_num) (by norm_num)
        omega
      have hup := lt_pow_log2Small n hn4096
      rw [hL] at hup
      have hpow : 2 ^ L ≤ n := by rw [← hL]; exact pow_log2Small_le n (by omega)
      have hL1 : L < 1061 := by
        have : 2 ^ L < 2 ^ 1061 := by
          have h1061 : (2 : Nat) ^ 1062 = 2 * 2 ^ 1061 := by decide
          omega
        exact (Nat.pow_lt_pow_iff_right (by norm_num)).1 this
      have hL2 : 1060 < L + 1 := by
        have : 2 ^ 1060 < 2 ^ (L + 1) := by omega
        exact (Nat.pow_lt_pow_iff_right (by norm_num)).1 this
      have hsh : L + 1 - 53 = 1008 := by omega
      rw [hsh]
      have h1 := rne_le_of_two_mul_lt n (2 ^ 1008) 7378697629483821 (by positivity) hlt
      exact Nat.mul_le_mul_right _ h1
    · -- at most the literal: it is on every grid in reach
      have hsh : L + 1 - 53 ≤ 1008 := by
        rcases Nat.eq_zero_or_pos n with h0 | hpos
        · subst h0
          have : log2Small 0 = 0 := by decide
          omega
        · have hpow : 2 ^ L ≤ n := by rw [← hL]; exact pow_log2Small_le n hpos
          have h2 : 2 ^ L < 2 ^ 1061 := by
            have h1061 : (2 : Nat) ^ 1062 = 2 * 2 ^ 1061 := by decide
            omega
          have h3 : L < 1061 := (Nat.pow_lt_pow_iff_right (by norm_num)).1 h2
          omega
      exact rne_mul_le n _ _ (by positivity) (Dvd.dvd.mul_left (pow_dvd_pow 2 hsh) _) hle

/-- The value of the literal `0.0001`: `7378697629483821 * 2^(-66)`. -/
theorem tolerance_eq : tolerance = Double.scaled false 7378697629483821 1008 := by
  decide

/-- The computed `fabs(a - b)` of two finite `double`s is at most the `double`
`0.0001` exactly when the exact difference is below the midpoint between that
`double` and the next one above it. -/
theorem Double.sub_le_tolerance_iff (x y : Int) :
    Double.le (Double.fabs (Double.sub (Double.fin x) (Double.fin y))) tolerance =
      decide (2 * (x - y).natAbs < (2 * 7378697629483821 + 1) * 2 ^ 1008) := by
  have hiff := roundUnits_le_iff (x - y).natAbs
  have hT : 7378697629483821 * 2 ^ 1008 < 2 ^ 2098 := by decide
  have hK : (2 * 7378697629483821 + 1) * 2 ^ 1008 < 2 ^ 2098 := by decide
  rw [tolerance_eq]
  unfold Double.sub Double.round Double.scaled
  simp only [Nat.div_one]
  generalize (x - y).natAbs = n at hiff ⊢
  generalize roundUnits n 1 = m at hiff ⊢
  generalize 7378697629483821 * 2 ^ 1008 = T at hiff hT ⊢
  generalize (2 * 7378697629483821 + 1) * 2 ^ 1008 = K at hiff hK ⊢
  generalize 2 ^ 2098 = B at hT hK ⊢
  by_cases h1 : B ≤ n
  · have h3 : ¬ 2 * n < K := by omega
    simp [h1, h3, Double.fabs, Double.le]
  · by_cases h2 : m < B
    · by_cases hneg : x - y < 0 <;> by_cases h3 : 2 * n < K <;>
        simp [h1, h2, h3, hneg, Double.fabs, Double.le, hiff]
    · have h3 : ¬ 2 * n < K := fun h => h2 (lt_of_le_of_lt (hiff.2 h) hT)
      simp [h1, h2, h3, Double.fabs, Double.le]

/-- The equality compare of two `double`s returns what `comp_sel<true>::comp`
computes. -/
theorem evaluate_double_eq (sd : Double → String) (self : Unittest) (a b : Double)
    (str1 str2 file : String) (line : Int) :
    (self.evaluate sd true true (Val.dbl a) (Val.dbl b) str1 str2 file line).2.ctrl =
      Ctrl.ret (if Double.eq Double.infinity a && Double.eq Double.infinity b then true
        else Double.le (Double.fabs (Double.sub a b)) tolerance) := by
  rw [(evaluate_eq sd self true true _ _ str1 str2 file line).1]
  simp [success, comp, comp_sel_true.comp, Val.is_floating_point, Val.eq, Val.infinity,
    Val.toDouble]

/-- C6, the claim as stated fails: the `double` `0.0001` is
`7378697629483821 * 2^(-66)`, which is above `1/10000`.  The finite operands
`0.0001` and `0.0` differ by exactly that value, so `|a - b| > 1/10000`, and
`0.0001` and `-2^(-1074)` differ by more than the `double` `0.0001` itself;
the equality compare of either pair returns `true`. -/
theorem evaluate_equal_above_tolerance :
    tolerance = Double.fin (Int.ofNat (7378697629483821 * 2 ^ 1008)) ∧
      tolerance.isFinite = true ∧ (Double.fin 0).isFinite = true ∧
      (Double.fin (-1)).isFinite = true ∧
      2 ^ 1074 < (Int.ofNat (7378697629483821 * 2 ^ 1008) - 0).natAbs * 10000 ∧
      (fancyname.evaluate plainDouble true true (Val.dbl tolerance) (Val.dbl (Double.fin 0))
        "0.0001" "0.0" "unit.cpp" 13).2.ctrl = Ctrl.ret true ∧
      7378697629483821 * 2 ^ 1008 <
        (Int.ofNat (7378697629483821 * 2 ^ 1008) - (-1)).natAbs ∧
      (fancyname.evaluate plainDouble true true (Val.dbl tolerance)
        (Val.dbl (Double.fin (-1))) "0.0001" "-4.9e-324" "unit.cpp" 13).2.ctrl =
        Ctrl.ret true := by
  decide

/-- C6 as amended, for operands of type `double`: the equality compare of the
finite values `x * 2^(-1074)` and `y * 2^(-1074)` returns `true` exactly when
`|x - y| * 2^(-1074)` is below `7378697629483821 * 2^(-66) + 2^(-67)`, the
midpoint between the `double` `0.0001` and the next `double` above it.  So it
returns `true` whenever the exact difference is at most `1/10000`, and `false`
whenever the exact difference is at least `1/10000 + 2^(-66)`.  The compare of
`1.00005` with `1.0` returns `true` although the two values differ. -/
theorem evaluate_equal_within_tolerance (sd : Double → String) (self : Unittest)
    (str1 str2 file : String) (line : Int) :
    (∀ x y : Int,
        (self.evaluate sd true true (Val.dbl (Double.fin x)) (Val.dbl (Double.fin y))
          str1 str2 file line).2.ctrl =
          Ctrl.ret (decide (2 * (x - y).natAbs < (2 * 7378697629483821 + 1) * 2 ^ 1008))) ∧
      (∀ x y : Int, (x - y).natAbs * 10000 ≤ 2 ^ 1074 →
        (self.evaluate sd true true (Val.dbl (Double.fin x)) (Val.dbl (Double.fin y))
          str1 str2 file line).2.ctrl = Ctrl.ret true) ∧
      (∀ x y : Int, 2 ^ 1074 + 10000 * 2 ^ 1008 ≤ (x - y).natAbs * 10000 →
        (self.evaluate sd true true (Val.dbl (Double.fin x)) (Val.dbl (Double.fin y))
          str1 str2 file line).2.ctrl = Ctrl.ret false) ∧
      (d1_00005 ≠ d1 ∧ Double.eq d1_00005 d1 = false ∧
        (self.evaluate sd true true (Val.dbl d1_00005) (Val.dbl d1) str1 str2 file
          line).2.ctrl = Ctrl.ret true) := by
  have hmain : ∀ x y : Int,
      (self.evaluate sd true true (Val.dbl (Double.fin x)) (Val.dbl (Double.fin y))
        str1 str2 file line).2.ctrl =
        Ctrl.ret (decide (2 * (x - y).natAbs < (2 * 7378697629483821 + 1) * 2 ^ 1008)) := by
    intro x y
    rw [evaluate_double_eq, Double.sub_le_tolerance_iff]
    simp [Double.eq, Double.infinity]
  have hlo : 2 * 2 ^ 1074 < (2 * 7378697629483821 + 1) * 2 ^ 1008 * 10000 := by decide
  have hhi : (2 * 7378697629483821 + 1) * 2 ^ 1008 * 10000 ≤
      2 * (2 ^ 1074 + 10000 * 2 ^ 1008) := by decide
  refine ⟨hmain, ?_, ?_, by decide, by decide, ?_⟩
  · intro x y h
    rw [hmain x y]
    have : 2 * (x - y).natAbs < (2 * 7378697629483821 + 1) * 2 ^ 1008 := by
      generalize (x - y).natAbs = n at h ⊢
      generalize (2 * 7378697629483821 + 1) * 2 ^ 1008 = K at hlo ⊢
      generalize 2 ^ 1074 = P at h hlo
      omega
    rw [decide_eq_true this]
  · intro x y h
    rw [hmain x y]
    have : ¬ 2 * (x - y).natAbs < (2 * 7378697629483821 + 1) * 2 ^ 1008 := by
      generalize (x - y).natAbs = n at h ⊢
      generalize (2 * 7378697629483821 + 1) * 2 ^ 1008 = K at hhi ⊢
      generalize 2 ^ 1074 + 10000 * 2 ^ 1008 = P at h hhi
      omega
    rw [decide_eq_false this]
  · rw [evaluate_double_eq]
    decide

/-- C6 as amended at `1.00005` against `1.0` (the exact rule), at `0.00005`
against `0.0` (exact difference below `1/10000`) and at `1.0` against `3.0`
(exact difference above `1/10000 + 2^(-66)`). -/
theorem evaluate_equal_within_tolerance_witness :
    (fancyname.evaluate plainDouble true true
        (Val.dbl (Double.fin (Int.ofNat (4503824807351865 * 2 ^ 1022))))
        (Val.dbl (Double.fin (Int.ofNat (2 ^ 1074)))) "1.00005" "1.0" "unit.cpp" 13).2.ctrl =
        Ctrl.ret true ∧
      (fancyname.evaluate plainDouble true true
        (Val.dbl (Double.fin (Int.ofNat (7378697629483821 * 2 ^ 1007))))
        (Val.dbl (Double.fin 0)) "0.00005" "0.0" "unit.cpp" 13).2.ctrl = Ctrl.ret true ∧
      (fancyname.evaluate plainDouble true true
        (Val.dbl (Double.fin (Int.ofNat (2 ^ 1074))))
        (Val.dbl (Double.fin (Int.ofNat (3 * 2 ^ 1074)))) "1.0" "3.0" "unit.cpp" 13).2.ctrl =
        Ctrl.ret false :=
  ⟨((evaluate_equal_within_tolerance plainDouble fancyname
      "1.00005" "1.0" "unit.cpp" 13).1 _ _).trans (by decide),
    (evaluate_equal_within_tolerance plainDouble fancyname
      "0.00005" "0.0" "unit.cpp" 13).2.1 _ _ (by decide),
    (evaluate_equal_within_tolerance plainDouble fancyname
      "1.0" "3.0" "unit.cpp" 13).2.2.1 _ _ (by decide)⟩

/-- C9: for every boolean `e`, `AS_T(e)` returns `true` if and only if `e` is
true and `AS_F(e)` returns `true` if and only if `e` is false; `AS_T(true)`,
`AS_F(4!=4)` and `evaluate(false, true, true, true)` return `true`. -/
theorem AS_T_AS_F_on_bool (sd : Double → String) (self : Unittest) (e : Bool)
    (str FILE : String) (LINE : Int) :
    (((AS_T (Val.bool e) str FILE LINE).eval sd self).2.ctrl = Ctrl.ret true ↔
        e = true) ∧
      (((AS_F (Val.bool e) str FILE LINE).eval sd self).2.ctrl = Ctrl.ret true ↔
        e = false) ∧
      ((AS_T (Val.bool true) str FILE LINE).eval sd self).2.ctrl = Ctrl.ret true ∧
      ((AS_F (Val.bool (decide ((4 : Int) ≠ 4))) str FILE LINE).eval sd self).2.ctrl =
        Ctrl.ret true ∧
      (self.evaluate sd false true (Val.bool true) (Val.bool true) str "true" FILE
        LINE).2.ctrl = Ctrl.ret true := by
  have hT : ∀ b : Bool, ((AS_T (Val.bool b) str FILE LINE).eval sd self).2.ctrl =
      Ctrl.ret b := by
    intro b
    simp only [AS_T, UNIT_COMPARE, Assertion.eval]
    rw [(evaluate_eq sd self false true _ _ str "true" (sname FILE) LINE).1]
    cases b <;> rfl
  have hF : ∀ b : Bool, ((AS_F (Val.bool b) str FILE LINE).eval sd self).2.ctrl =
      Ctrl.ret (!b) := by
    intro b
    simp only [AS_F, UNIT_COMPARE, Assertion.eval]
    rw [(evaluate_eq sd self false true _ _ str "false" (sname FILE) LINE).1]
    cases b <;> rfl
  refine ⟨?_, ?_, hT true, hF _, ?_⟩
  · rw [hT]; simp
  · rw [hF]; cases e <;> simp
  · rw [(evaluate_eq sd self false true _ _ str "true" FILE LINE).1]
    rfl

/-! ## Short file names and the diagnostic line -/

/-- What `rfind` finds: the character at the index returned is `c`, no `c`
follows it, and `none` means that `c` does not occur. -/
theorem rfind_spec (c : Char) (l : List Char) :
    match rfind l c with
    | some i => l = l.take i ++ c :: l.drop (i + 1) ∧ c ∉ l.drop (i + 1)
    | none => c ∉ l := by
  induction l with
  | nil => simp [rfind]
  | cons x xs ih =>
    unfold rfind
    cases h : rfind xs c with
    | some i =>
      rw [h] at ih
      simp only [List.take_succ_cons, List.drop_succ_cons, List.cons_append, List.cons.injEq,
        true_and]
      exact ih
    | none =>
      rw [h] at ih
      by_cases hx : x = c
      · simp [hx, ih]
      · simp [hx, ih, Ne.symm hx]

/-- C8: when `s` contains a `'/'`, `s` is some prefix, then `"/"`, then
`sname s`, and `sname s` contains no `'/'`; when `s` contains no `'/'`,
`sname s` is `s`; `sname "a/b/c.ext"` is `"c.ext"` and `sname "nofile.ext"` is
`"nofile.ext"`. -/
theorem sname_is_last_component (s : String) :
    ('/' ∈ s.data → ∃ p : String, s = p ++ "/" ++ sname s ∧ '/' ∉ (sname s).data) ∧
      ('/' ∉ s.data → sname s = s) ∧
      sname "a/b/c.ext" = "c.ext" ∧ sname "nofile.ext" = "nofile.ext" := by
  have hspec := rfind_spec '/' s.data
  refine ⟨?_, ?_, by decide, by decide⟩
  · intro hmem
    unfold sname
    cases h : rfind s.data '/' with
    | none => rw [h] at hspec; exact absurd hmem hspec
    | some i =>
      rw [h] at hspec
      refine ⟨⟨s.data.take i⟩, ?_, hspec.2⟩
      apply String.ext
      simp only [String.data_append]
      rw [List.append_assoc]
      exact hspec.1
  · intro hmem
    unfold sname
    cases h : rfind s.data '/' with
    | none => rfl
    | some i =>
      rw [h] at hspec
      have : '/' ∈ s.data := by
        rw [hspec.1]
        simp
      exact absurd this hmem

/-- C8 at `"a/b/c.ext"`: the prefix is `"a/b"`. -/
theorem sname_is_last_component_witness :
    ∃ p : String, "a/b/c.ext" = p ++ "/" ++ sname "a/b/c.ext" ∧
      '/' ∉ (sname "a/b/c.ext").data :=
  (sname_is_last_component "a/b/c.ext").1 (by decide)

/-- C10, the claim as stated fails: the failing `AS_EQ(42, 43)` of the test
`fancyname` writes ` in Unittest(fancyname)` where the claim has
` in Test(fancyname)`. -/
theorem evaluates_writes_Unittest_not_Test :
    (Unittest.evaluates plainDouble true true (Val.int 42) (Val.int 43) "42" "43"
        "unit.cpp" 13 OStream.cerr "fancyname" false).out =
      [(OStream.cerr, "unit.cpp:13 in Unittest(fancyname) Assert Failed: " ++
        "compare \x7b42\x7d == \x7b43\x7d got \x7b\"42\"\x7d == \x7b\"43\"\x7d\n")] ∧
    specDiagnostic plainDouble true true (Val.int 42) (Val.int 43) "42" "43"
        "unit.cpp" 13 "fancyname" =
      "unit.cpp:13 in Test(fancyname) Assert Failed: " ++
        "compare \x7b42\x7d == \x7b43\x7d got \x7b\"42\"\x7d == \x7b\"43\"\x7d\n" ∧
    (Unittest.evaluates plainDouble true true (Val.int 42) (Val.int 43) "42" "43"
        "unit.cpp" 13 OStream.cerr "fancyname" false).out ≠
      [(OStream.cerr, specDiagnostic plainDouble true true (Val.int 42) (Val.int 43)
        "42" "43" "unit.cpp" 13 "fancyname")] := by
  decide

/-- C10 as amended: there is one word, the same for every call, such that a
failing assertion writes to its sink exactly one chunk: `<shortFile>:<line>`,
then ` in Unittest(<name>)` when the name is non-empty, then
` Assert Failed: `, then in compare mode
`compare {<e1-text>} <op> {<e2-text>} got {"<e1-rendered>"} <op> {"<e2-rendered>"}`
with `<op>` being `==` if `expectEqual` and `!=` otherwise, and in single mode
that word followed by ` {<e1-text>} == <e2-rendered>`; then a newline.
The word is not empty and consists of letters.  Booleans are rendered as
`true` and `false`. -/
theorem evaluates_diagnostic :
    ∃ verb : String, verb.data ≠ [] ∧ (∀ c ∈ verb.data, c.isAlpha = true) ∧
      ∀ (sd : Double → String) (compare result : Bool) (e1 e2 : Val)
        (str1 str2 file : String) (line : Int) (out : OStream) (name : String)
        (die : Bool), success result e1 e2 = false →
        (Unittest.evaluates sd compare result e1 e2 str1 str2 file line out name die).out =
          [(out, sname file ++ ":" ++ toString line ++
            (if name = "" then "" else " in Unittest(" ++ name ++ ")") ++
            " Assert Failed: " ++
            (if compare then
              "compare \x7b" ++ str1 ++ "\x7d " ++ (if result then "==" else "!=") ++
                " \x7b" ++ str2 ++ "\x7d got \x7b\"" ++ Val.render sd e1 ++ "\"\x7d " ++
                (if result then "==" else "!=") ++ " \x7b\"" ++ Val.render sd e2 ++
                "\"\x7d"
            else verb ++ " \x7b" ++ str1 ++ "\x7d == " ++ Val.render sd e2) ++ "\n")] ∧
        Val.render sd (Val.bool true) = "true" ∧
        Val.render sd (Val.bool false) = "false" := by
  refine ⟨"evalute", by decide, by decide, ?_⟩
  intro sd compare result e1 e2 str1 str2 file line out name die hfail
  refine ⟨?_, rfl, rfl⟩
  have hs : (if result then comp e1 e2 else !comp e1 e2) = false := hfail
  unfold Unittest.evaluates
  rw [hs]
  have h2 : (") Assert Failed: " : String) = ")" ++ " Assert Failed: " := by decide
  have h4 : ("evalute \x7b" : String) = "evalute" ++ " \x7b" := by decide
  by_cases hn : name = "" <;> cases compare <;> cases die <;>
    simp [hn, h2, h4, String.append_assoc]

/-- C10 as amended, in single mode at the failing `AS_T(false)` of the test
`fancyname` and in compare mode at a failing `AS_NEQ(4, 4)` outside a test
(empty name). -/
theorem evaluates_diagnostic_witness :
    ∃ verb : String, verb.data ≠ [] ∧ (∀ c ∈ verb.data, c.isAlpha = true) ∧
      (Unittest.evaluates plainDouble false true (Val.bool false) (Val.bool true)
          "false" "true" "unit.cpp" 11 OStream.cerr "fancyname" false).out =
        [(OStream.cerr, "unit.cpp:11 in Unittest(fancyname) Assert Failed: " ++
          (verb ++ " \x7b" ++ "false" ++ "\x7d == " ++ "true") ++ "\n")] ∧
      (Unittest.evaluates plainDouble true false (Val.int 4) (Val.int 4)
          "4" "4" "unit.cpp" 12 OStream.cerr "" false).out =
        [(OStream.cerr, "unit.cpp:12 Assert Failed: " ++
          "compare \x7b4\x7d != \x7b4\x7d got \x7b\"4\"\x7d != \x7b\"4\"\x7d\n")] :=
  evaluates_diagnostic.imp fun _ h =>
    ⟨h.1, h.2.1,
      (h.2.2 plainDouble false true (Val.bool false) (Val.bool true)
        "false" "true" "unit.cpp" 11 OStream.cerr "fancyname" false (by decide)).1,
      (h.2.2 plainDouble true false (Val.int 4) (Val.int 4)
        "4" "4" "unit.cpp" 12 OStream.cerr "" false (by decide)).1⟩

/-! ## Successful assertions, `run` and the constructor -/

/-- A call of `evaluates` whose success condition holds returns `true` and
writes nothing, whatever `die` is. -/
theorem evaluates_of_success (sd : Double → String) (compare result : Bool) (e1 e2 : Val)
    (str1 str2 file : String) (line : Int) (out : OStream) (name : String) (die : Bool)
    (hsucc : success result e1 e2 = true) :
    Unittest.evaluates sd compare result e1 e2 str1 str2 file line out name die =
      ⟨[], Ctrl.ret true⟩ := by
  have hs : (if result then comp e1 e2 else !comp e1 e2) = true := hsucc
  unfold Unittest.evaluates
  rw [hs]
  rfl

/-- C11: an assertion call, fatal or not, whose success condition holds returns
`true`, writes nothing and does not end the process; the non-fatal form leaves
the test, its failure count included, unchanged. -/
theorem evaluates_success_is_silent (sd : Double → String) (self : Unittest)
    (compare result : Bool) (e1 e2 : Val) (str1 str2 file : String) (line : Int)
    (out : OStream) (name : String) (die : Bool)
    (hsucc : success result e1 e2 = true) :
    Unittest.evaluates sd compare result e1 e2 str1 str2 file line out name die =
        ⟨[], Ctrl.ret true⟩ ∧
      self.evaluate sd compare result e1 e2 str1 str2 file line =
        (self, ⟨[], Ctrl.ret true⟩) ∧
      (self.evaluate sd compare result e1 e2 str1 str2 file line).1.errors_ =
        self.errors_ := by
  have h1 : ∀ (o : OStream) (n : String) (d : Bool),
      Unittest.evaluates sd compare result e1 e2 str1 str2 file line o n d =
        ⟨[], Ctrl.ret true⟩ :=
    fun o n d => evaluates_of_success sd compare result e1 e2 str1 str2 file line o n d hsucc
  have h2 : self.evaluate sd compare result e1 e2 str1 str2 file line =
      (self, ⟨[], Ctrl.ret true⟩) := by
    unfold Unittest.evaluate
    rw [h1]
    rfl
  exact ⟨h1 out name die, h2, by rw [h2]⟩

/-- C11 at `ASSERT_EQ(42, 42)` and `AS_EQ(42, 42)` in the test `fancyname`. -/
theorem evaluates_success_is_silent_witness :
    Unittest.evaluates plainDouble true true (Val.int 42) (Val.int 42) "42" "42"
        "unit.cpp" 13 OStream.cout "" true = ⟨[], Ctrl.ret true⟩ ∧
      fancyname.evaluate plainDouble true true (Val.int 42) (Val.int 42) "42" "42"
        "unit.cpp" 13 = (fancyname, ⟨[], Ctrl.ret true⟩) ∧
      (fancyname.evaluate plainDouble true true (Val.int 42) (Val.int 42) "42" "42"
        "unit.cpp" 13).1.errors_ = fancyname.errors_ :=
  evaluates_success_is_silent plainDouble fancyname true true (Val.int 42) (Val.int 42)
    "42" "42" "unit.cpp" 13 OStream.cout "" true (by decide)

/-- C13: the effects of `run` are those of one execution of the body: the test
and the text written afterwards are the body's.  When the body returns, `run`
returns `true` if and only if the failure count is then greater than `0`; an
error raised by the body leaves `run` uncaught. -/
theorem run_runs_body_once (sd : Double → String) (t : Unittest) :
    (t.run sd).self = (Body.exec sd t.run_impl t).self ∧
      (t.run sd).out = (Body.exec sd t.run_impl t).out ∧
      ((Body.exec sd t.run_impl t).ctrl = Ctrl.ret () →
        ∃ b, (t.run sd).ctrl = Ctrl.ret b ∧ (b = true ↔ 0 < (t.run sd).self.errors_)) ∧
      (∀ x, (Body.exec sd t.run_impl t).ctrl = Ctrl.raise x →
        (t.run sd).ctrl = Ctrl.raise x) := by
  unfold Unittest.run
  cases h : (Body.exec sd t.run_impl t).ctrl <;> simp [h, Nat.pos_iff_ne_zero]

/-- C13 at the third test of `throwingRegistry` (its body returns after one
failure) and at the second (its body throws). -/
theorem run_runs_body_once_witness :
    (∃ b, ((⟨"b.cpp", 11, "third", 0, OStream.cerr,
          Body.assert (AS_T (Val.bool false) "false" "t/b.cpp" 12) fun _ => Body.done⟩ :
          Unittest).run plainDouble).ctrl = Ctrl.ret b ∧
        (b = true ↔ 0 < ((⟨"b.cpp", 11, "third", 0, OStream.cerr,
          Body.assert (AS_T (Val.bool false) "false" "t/b.cpp" 12) fun _ => Body.done⟩ :
          Unittest).run plainDouble).self.errors_)) ∧
      ((⟨"b.cpp", 7, "second", 0, OStream.cerr, Body.raise (Thrown.exception "boom")⟩ :
        Unittest).run plainDouble).ctrl = Ctrl.raise (Thrown.exception "boom") :=
  ⟨(run_runs_body_once plainDouble _).2.2.1 (by decide),
    (run_runs_body_once plainDouble _).2.2.2 _ (by decide)⟩

/-- Constructing a list of tests appends them in order. -/
theorem declareAll_eq (ds : List (String × String × Int × Body)) :
    ∀ tests : List Unittest,
      declareAll tests ds = tests ++ ds.map (fun d =>
        ⟨sname d.2.1, d.2.2.1, d.1, 0, OStream.cerr, d.2.2.2⟩) := by
  induction ds with
  | nil => intro tests; simp [declareAll]
  | cons d ds ih =>
    intro tests
    have h := ih (Unittest.ctor tests d.1 d.2.1 d.2.2.1 d.2.2.2)
    simp only [declareAll, List.foldl_cons] at h ⊢
    rw [h]
    simp [Unittest.ctor]

/-- C14: the constructor appends the new test at the back of the registry: the
registry grows by exactly one and its earlier elements are unchanged, in the
same order.  The new test has failure count `0`, file `sname sourceFile`, the
given line and name (and `cerr` as its stream).  Hence tests constructed one
after the other stand in the registry in the order of their construction. -/
theorem ctor_appends (tests : List Unittest) (name f : String) (l : Int) (body : Body)
    (ds : List (String × String × Int × Body)) :
    Unittest.ctor tests name f l body =
        tests ++ [⟨sname f, l, name, 0, OStream.cerr, body⟩] ∧
      (Unittest.ctor tests name f l body).length = tests.length + 1 ∧
      (Unittest.ctor tests name f l body).take tests.length = tests ∧
      ((Unittest.ctor tests name f l body).getLast?.map
        fun t => (t.errors_, t.file, t.line, t.name_)) = some (0, sname f, l, name) ∧
      (declareAll [] ds).map (fun t => (t.name_, t.file, t.line, t.errors_)) =
        ds.map (fun d => (d.1, sname d.2.1, d.2.2.1, 0)) := by
  refine ⟨rfl, by simp [Unittest.ctor], by simp [Unittest.ctor], by simp [Unittest.ctor], ?_⟩
  rw [declareAll_eq]
  simp [Function.comp_def]

/-! ## Infinite operands -/

/-- C17: with positive infinity on both sides the equality compare returns
`true` and the inequality compare returns `false`. -/
theorem evaluate_positive_infinity (sd : Double → String) (self : Unittest)
    (str1 str2 file : String) (line : Int) :
    (self.evaluate sd true true (Val.dbl (Double.inf false)) (Val.dbl (Double.inf false))
        str1 str2 file line).2.ctrl = Ctrl.ret true ∧
      (self.evaluate sd true false (Val.dbl (Double.inf false))
        (Val.dbl (Double.inf false)) str1 str2 file line).2.ctrl = Ctrl.ret false ∧
      Double.infinity = Double.inf false := by
  refine ⟨?_, ?_, rfl⟩
  · rw [(evaluate_eq sd self true true _ _ str1 str2 file line).1]
    decide
  · rw [(evaluate_eq sd self true false _ _ str1 str2 file line).1]
    decide

/-- C18: with negative infinity on both sides the test
`numeric_limits::infinity() == t` is false, so the shortcut is not taken; the
difference is a NaN and `fabs(t - s) <= 0.0001` is false; the equality compare
returns `false` and the inequality compare returns `true`. -/
theorem evaluate_negative_infinity (sd : Double → String) (self : Unittest)
    (str1 str2 file : String) (line : Int) :
    Double.eq Double.infinity (Double.inf true) = false ∧
      Double.sub (Double.inf true) (Double.inf true) = Double.nan ∧
      Double.le (Double.fabs (Double.sub (Double.inf true) (Double.inf true)))
        tolerance = false ∧
      comp_sel_true.comp (Val.dbl (Double.inf true)) (Val.dbl (Double.inf true)) = false ∧
      (self.evaluate sd true true (Val.dbl (Double.inf true)) (Val.dbl (Double.inf true))
        str1 str2 file line).2.ctrl = Ctrl.ret false ∧
      (self.evaluate sd true false (Val.dbl (Double.inf true))
        (Val.dbl (Double.inf true)) str1 str2 file line).2.ctrl = Ctrl.ret true := by
  refine ⟨by decide, by decide, by decide, by decide, ?_, ?_⟩
  · rw [(evaluate_eq sd self true true _ _ str1 str2 file line).1]
    decide
  · rw [(evaluate_eq sd self true false _ _ str1 str2 file line).1]
    decide

/-! ## `sname` applied twice -/

/-- A character that does not occur is not found. -/
theorem rfind_eq_none (c : Char) (l : List Char) (h : c ∉ l) : rfind l c = none := by
  have hspec := rfind_spec c l
  cases hr : rfind l c with
  | none => rfl
  | some i =>
    rw [hr] at hspec
    exact absurd (by rw [hspec.1]; simp) h

/-- A name without `'/'` is its own short name. -/
theorem sname_eq_self (t : String) (h : '/' ∉ t.data) : sname t = t := by
  unfold sname
  rw [rfind_eq_none _ _ h]

/-- C20: `sname s` contains no `'/'` and `sname (sname s) = sname s`; so
`evaluates` called with a file name that `sname` already shortened, as the
macros call it, writes and returns what it does on the original file name. -/
theorem sname_idempotent (s : String) (sd : Double → String) (compare result : Bool)
    (e1 e2 : Val) (str1 str2 : String) (line : Int) (out : OStream) (name : String)
    (die : Bool) :
    '/' ∉ (sname s).data ∧ sname (sname s) = sname s ∧
      Unittest.evaluates sd compare result e1 e2 str1 str2 (sname s) line out name die =
        Unittest.evaluates sd compare result e1 e2 str1 str2 s line out name die := by
  have hno : '/' ∉ (sname s).data := by
    have hspec := rfind_spec '/' s.data
    unfold sname
    cases h : rfind s.data '/' with
    | none => rw [h] at hspec; exact hspec
    | some i => rw [h] at hspec; exact hspec.2
  have hid : sname (sname s) = sname s := sname_eq_self _ hno
  refine ⟨hno, hid, ?_⟩
  unfold Unittest.evaluates
  rw [hid]

/-! ## The assertion surface -/

/-- C15, the claim as stated fails: `AS_F(e)` and `ASSERT_F(e)` pass
`expectEqual = true` (with `false` as second operand), where the table has
`expectEqual = false`. -/
theorem AS_F_passes_expectEqual_true :
    (AS_F (Val.bool false) "4!=4" "unit.cpp" 12).params = (false, true, false) ∧
      specTable Form.falsy = (false, false, false) ∧
      (Form.falsy.expand (Val.bool false) (Val.bool false) "4!=4" "" "unit.cpp" 12).params ≠
        specTable Form.falsy ∧
      (ASSERT_F (Val.bool false) "4!=4" "unit.cpp" 12).params = (false, true, true) ∧
      (Form.assertedFalsy.expand (Val.bool false) (Val.bool false) "4!=4" ""
        "unit.cpp" 12).params ≠ specTable Form.assertedFalsy := by
  decide

/-- C15 as amended: the equality, inequality and truthy forms, asserted or not,
pass the (compareMode, expectEqual, fatal) parameters of the table.  The falsy
forms pass compareMode `false` and the table's fatal flag, but
`expectEqual = true` with the constant `false` as second operand: `AS_F(e)` is
`evaluate(false, true, e, false, ...)` and `ASSERT_F(e)` is
`evaluates(false, true, e, false, ..., &std::cout, "", true)`. -/
theorem forms_pass_parameters (f : Form) (e1 e2 : Val) (str1 str2 FILE : String)
    (LINE : Int) :
    (f.expand e1 e2 str1 str2 FILE LINE).params =
        (if f = Form.falsy ∨ f = Form.assertedFalsy then
          ((specTable f).1, true, (specTable f).2.2)
        else specTable f) ∧
      AS_F e1 str1 FILE LINE =
        Assertion.member ⟨false, true, e1, Val.bool false, str1, "false", sname FILE, LINE⟩ ∧
      ASSERT_F e1 str1 FILE LINE =
        Assertion.static ⟨false, true, e1, Val.bool false, str1, "false", sname FILE, LINE⟩
          OStream.cout "" true ∧
      (specTable Form.falsy).1 = false ∧ (specTable Form.assertedFalsy).1 = false ∧
      (specTable Form.falsy).2.2 = false ∧ (specTable Form.assertedFalsy).2.2 = true := by
  refine ⟨?_, rfl, rfl, rfl, rfl, rfl, rfl⟩
  cases f <;> rfl

/-! ## Fatal assertions -/

/-- A failing call of `evaluates` with `die = true` writes what the call with
`die = false` writes, one chunk on its stream, and ends the process with
status `1`. -/
theorem evaluates_die (sd : Double → String) (compare result : Bool) (e1 e2 : Val)
    (str1 str2 file : String) (line : Int) (out : OStream) (name : String)
    (hfail : success result e1 e2 = false) :
    Unittest.evaluates sd compare result e1 e2 str1 str2 file line out name true =
        ⟨(Unittest.evaluates sd compare result e1 e2 str1 str2 file line out name
          false).out, Ctrl.exit 1⟩ ∧
      ∃ text, (Unittest.evaluates sd compare result e1 e2 str1 str2 file line out name
        false).out = [(out, text)] := by
  have hs : (if result then comp e1 e2 else !comp e1 e2) = false := hfail
  unfold Unittest.evaluates
  rw [hs]
  exact ⟨rfl, _, rfl⟩

/-- A call of the body that does not return is the last call of the body: the
execution of the body ends there, in the state and with the control result of
that call, after writing what the call wrote. -/
theorem exec_of_trace_halts (sd : Double → String) (a : Assertion) (u' : Unittest)
    (hhalt : (a.eval sd u').2.ctrl.resumes = false) (b : Body) :
    ∀ u : Unittest, (a, u') ∈ Body.trace sd b u →
      (∃ front, Body.trace sd b u = front ++ [(a, u')]) ∧
      (∃ pfx, (Body.exec sd b u).out = pfx ++ (a.eval sd u').2.out) ∧
      (Body.exec sd b u).self = (a.eval sd u').1 ∧
      (∃ code, (a.eval sd u').2.ctrl = Ctrl.exit code ∧
        (Body.exec sd b u).ctrl = Ctrl.exit code) := by
  induction b with
  | done => intro u h; simp [Body.trace] at h
  | raise x => intro u h; simp [Body.trace] at h
  | setOutputStream o k ih =>
    intro u h
    simp only [Body.trace] at h
    simpa only [Body.trace, Body.exec] using ih _ h
  | assert a0 k ih =>
    intro u h
    rw [Body.trace, List.mem_cons] at h
    rw [Body.trace, Body.exec]
    rcases hev : a0.eval sd u with ⟨self', o, c⟩
    rw [hev] at h
    cases c with
    | ret r =>
      simp only at h ⊢
      rcases h with h | h
      · exfalso
        have h1 : a = a0 := congrArg Prod.fst h
        have h2 : u' = u := congrArg Prod.snd h
        rw [h1, h2, hev] at hhalt
        simp [Ctrl.resumes] at hhalt
      · obtain ⟨⟨front, hf⟩, ⟨pfx, hp⟩, hself, code, hc1, hc2⟩ := ih r self' h
        refine ⟨⟨(a0, u) :: front, by rw [hf]; rfl⟩, ⟨o ++ pfx, ?_⟩, hself, code, hc1, hc2⟩
        rw [hp, List.append_assoc]
    | raise x =>
      simp only [List.not_mem_nil, or_false] at h
      have h1 : a = a0 := congrArg Prod.fst h
      have h2 : u' = u := congrArg Prod.snd h
      rw [h1, h2, hev] at hhalt
      simp [Ctrl.resumes] at hhalt
    | exit code =>
      simp only [List.not_mem_nil, or_false] at h
      have h1 : a = a0 := congrArg Prod.fst h
      have h2 : u' = u := congrArg Prod.snd h
      subst h1 h2
      rw [hev]
      exact ⟨⟨[], rfl⟩, ⟨[], rfl⟩, rfl, code, rfl, rfl⟩

/-- Over a first part of the registry in which every `run` returns or raises,
the loop runs every test once, in order, and goes on with the rest; the
aggregate it goes on with is `true` only if it was `true` before. -/
theorem runTestsFrom_append (sd : Double → String) (pre : List Unittest)
    (hpre : ∀ p ∈ pre, (p.run sd).ctrl.resumes = true) (rest : List Unittest) :
    ∀ (i : Nat) (rs : Bool), ∃ rs' : Bool,
      (rs' = true → rs = true) ∧
      (runTestsFrom sd (pre ++ rest) i rs).tests =
        pre.map (fun p => (p.run sd).self) ++
          (runTestsFrom sd rest (i + pre.length) rs').tests ∧
      (runTestsFrom sd (pre ++ rest) i rs).ran =
        List.range' i pre.length ++ (runTestsFrom sd rest (i + pre.length) rs').ran ∧
      (runTestsFrom sd rest (i + pre.length) rs').out <:+
        (runTestsFrom sd (pre ++ rest) i rs).out ∧
      (runTestsFrom sd (pre ++ rest) i rs).ctrl =
        (runTestsFrom sd rest (i + pre.length) rs').ctrl := by
  induction pre with
  | nil => intro i rs; exact ⟨rs, id, by simp⟩
  | cons p pre ih =>
    intro i rs
    have hp := hpre p (List.mem_cons_self p pre)
    have ih' := ih (fun q hq => hpre q (List.mem_cons_of_mem p hq))
    have hlen : i + (p :: pre).length = i + 1 + pre.length := by
      simp only [List.length_cons]; omega
    rw [hlen, List.cons_append, runTestsFrom]
    cases h : (p.run sd).ctrl with
    | ret tmp =>
      obtain ⟨rs', h0, h1, h2, h3, h4⟩ := ih' (i + 1) (rs && !tmp)
      refine ⟨rs', ?_, ?_, ?_, ?_, ?_⟩
      · intro hrs; have := h0 hrs; simp at this; exact this.1
      · simp [h1]
      · simp [h2, List.range'_succ]
      · exact h3.trans (List.suffix_append _ _)
      · simp [h4]
    | raise x =>
      obtain ⟨rs', h0, h1, h2, h3, h4⟩ := ih' (i + 1) false
      simp only [Bool.and_false]
      cases x with
      | exception what =>
        refine ⟨rs', ?_, ?_, ?_, ?_, ?_⟩
        · intro hrs; exact absurd (h0 hrs) (by simp)
        · simp [h1]
        · simp [h2, List.range'_succ]
        · exact h3.trans ((List.suffix_cons _ _).trans (List.suffix_append _ _))
        · simp [h4]
      | other =>
        refine ⟨rs', ?_, ?_, ?_, ?_, ?_⟩
        · intro hrs; exact absurd (h0 hrs) (by simp)
        · simp [h1]
        · simp [h2, List.range'_succ]
        · exact h3.trans ((List.suffix_cons _ _).trans (List.suffix_append _ _))
        · simp [h4]
    | exit code => rw [h] at hp; simp [Ctrl.resumes] at hp

/-- `run` ends as the body ends when the body ends the process. -/
theorem run_of_exec_exit (sd : Double → String) (t : Unittest) (code : Int)
    (h : (Body.exec sd t.run_impl t).ctrl = Ctrl.exit code) :
    (t.run sd).ctrl = Ctrl.exit code ∧ (t.run sd).out = (Body.exec sd t.run_impl t).out := by
  unfold Unittest.run
  simp [h]

/-- C12: when the execution of a test body reaches a fatal assertion whose
success condition does not hold, the call writes its diagnostic (one chunk, the
one the non-fatal engine call writes) and ends the process with status `1`.  It
is the last call of the body, the body and `run` end there, `runTests` ends
with status `1` having invoked `run` on no later test, and later tests are
untouched.  A fatal assertion whose condition holds returns `true`, writes
nothing and does not end the process. -/
theorem fatal_failure_halts (sd : Double → String) (pre : List Unittest) (t : Unittest)
    (post : List Unittest) (c : Call) (o : OStream) (n : String) (u' : Unittest)
    (hpre : ∀ p ∈ pre, (p.run sd).ctrl.resumes = true)
    (hcall : (Assertion.static c o n true, u') ∈ Body.trace sd t.run_impl t)
    (hfail : success c.result c.e1 c.e2 = false) :
    (Assertion.static c o n true).eval sd u' =
        (u', ⟨(Unittest.evaluates sd c.compare c.result c.e1 c.e2 c.str1 c.str2 c.file
          c.line o n false).out, Ctrl.exit 1⟩) ∧
      (∃ text, (Unittest.evaluates sd c.compare c.result c.e1 c.e2 c.str1 c.str2 c.file
        c.line o n false).out = [(o, text)]) ∧
      (∃ front, Body.trace sd t.run_impl t = front ++ [(Assertion.static c o n true, u')]) ∧
      (Body.exec sd t.run_impl t).self = u' ∧
      (Body.exec sd t.run_impl t).ctrl = Ctrl.exit 1 ∧
      (t.run sd).ctrl = Ctrl.exit 1 ∧
      (runTests sd (pre ++ t :: post)).ctrl = Ctrl.exit 1 ∧
      (runTests sd (pre ++ t :: post)).ran = List.range (pre.length + 1) ∧
      (runTests sd (pre ++ t :: post)).tests =
        pre.map (fun p => (p.run sd).self) ++ u' :: post ∧
      (Unittest.evaluates sd c.compare c.result c.e1 c.e2 c.str1 c.str2 c.file
        c.line o n false).out <:+ (runTests sd (pre ++ t :: post)).out ∧
      (∀ (c' : Call) (o' : OStream) (n' : String) (v : Unittest),
        success c'.result c'.e1 c'.e2 = true →
        (Assertion.static c' o' n' true).eval sd v = (v, ⟨[], Ctrl.ret true⟩)) := by
  obtain ⟨hdie, text, htext⟩ := evaluates_die sd c.compare c.result c.e1 c.e2 c.str1 c.str2
    c.file c.line o n hfail
  have heval : (Assertion.static c o n true).eval sd u' =
      (u', ⟨(Unittest.evaluates sd c.compare c.result c.e1 c.e2 c.str1 c.str2 c.file
        c.line o n false).out, Ctrl.exit 1⟩) := by
    simp only [Assertion.eval, hdie]
  have hhalt : ((Assertion.static c o n true).eval sd u').2.ctrl.resumes = false := by
    rw [heval]; rfl
  obtain ⟨hlast, ⟨pfx, hpfx⟩, hself, code, hc1, hc2⟩ :=
    exec_of_trace_halts sd _ u' hhalt t.run_impl t hcall
  rw [heval] at hc1 hself hpfx
  simp only [Ctrl.exit.injEq] at hc1
  subst hc1
  simp only at hself hpfx
  obtain ⟨hrun, hrout⟩ := run_of_exec_exit sd t 1 hc2
  have hrself : (t.run sd).self = u' := by rw [run_self, hself]
  obtain ⟨rs', -, h1, h2, h3, h4⟩ := runTestsFrom_append sd pre hpre (t :: post) 0 true
  have hrest : runTestsFrom sd (t :: post) (0 + pre.length) rs' =
      ⟨(t.run sd).self :: post, (t.run sd).out, [0 + pre.length], Ctrl.exit 1⟩ := by
    rw [runTestsFrom]
    simp only [hrun]
  rw [hrest] at h1 h2 h3 h4
  simp only at h1 h2 h3 h4
  refine ⟨heval, ⟨text, htext⟩, hlast, hself, hc2, hrun, h4, ?_, ?_, ?_, ?_⟩
  · rw [runTests, h2, List.range_eq_range', List.range'_concat]
    simp
  · rw [runTests, h1, hrself]
  · refine List.IsSuffix.trans ?_ h3
    rw [hrout, hpfx]
    exact List.suffix_append _ _
  · intro c' o' n' v hs
    simp only [Assertion.eval]
    rw [evaluates_of_success sd c'.compare c'.result c'.e1 c'.e2 c'.str1 c'.str2
      c'.file c'.line o' n' true hs]

/-- C12 at the registry `assertingFirst`, `assertingSecond`, `assertingThird`:
the second test reaches the failing `ASSERT_EQ(42, 43)` after one counted
failure; `runTests` ends with status `1`, `run` was invoked on the first two
tests only, and the third test is untouched. -/
theorem fatal_failure_halts_witness :
    (runTests plainDouble ([assertingFirst] ++ assertingSecond :: [assertingThird])).ctrl =
        Ctrl.exit 1 ∧
      (runTests plainDouble ([assertingFirst] ++ assertingSecond :: [assertingThird])).ran =
        List.range ([assertingFirst].length + 1) ∧
      (runTests plainDouble ([assertingFirst] ++ assertingSecond :: [assertingThird])).tests =
        [assertingFirst].map (fun p => (p.run plainDouble).self) ++
          { assertingSecond with errors_ := 1 } :: [assertingThird] :=
  have h := fatal_failure_halts plainDouble [assertingFirst] assertingSecond [assertingThird]
    ⟨true, true, Val.int 42, Val.int 43, "42", "43", sname "t/c.cpp", 9⟩ OStream.cout ""
    { assertingSecond with errors_ := 1 } (by decide)
    (List.Mem.tail _ (List.Mem.head _)) (by decide)
  ⟨h.2.2.2.2.2.2.1, h.2.2.2.2.2.2.2.1, h.2.2.2.2.2.2.2.2.1⟩

/-! ## Lines of output -/

/-- No digit is a newline. -/
theorem digitChar_ne_newline (d : Nat) : Nat.digitChar d ≠ '\n' := by
  by_cases h : d < 16
  · interval_cases d <;> decide
  · unfold Nat.digitChar
    iterate 16 rw [if_neg (by omega)]
    decide

/-- Digits are added, never a newline. -/
theorem toDigitsCore_no_newline (fuel : Nat) :
    ∀ (n : Nat) (ds : List Char), '\n' ∉ ds → '\n' ∉ Nat.toDigitsCore 10 fuel n ds := by
  induction fuel with
  | zero => intro n ds h; simpa [Nat.toDigitsCore] using h
  | succ fuel ih =>
    intro n ds h
    have hd : '\n' ∉ Nat.digitChar (n % 10) :: ds := by
      simp only [List.mem_cons, not_or]
      exact ⟨(digitChar_ne_newline _).symm, h⟩
    simp only [Nat.toDigitsCore]
    split
    · exact hd
    · exact ih _ _ hd

/-- The decimal text of a natural number has no newline. -/
theorem newlines_nat_repr (n : Nat) : newlines (Nat.repr n) = 0 := by
  unfold newlines Nat.repr Nat.toDigits
  rw [List.count_eq_zero]
  exact toDigitsCore_no_newline _ _ _ (by simp)

/-- Newlines of a concatenation. -/
theorem newlines_append (a b : String) : newlines (a ++ b) = newlines a + newlines b := by
  simp [newlines, String.data_append, List.count_append]

/-- The text `<<` writes for an `int` has no newline. -/
theorem newlines_toString_int (i : Int) : newlines (toString i) = 0 := by
  cases i with
  | ofNat m => exact newlines_nat_repr m
  | negSucc m =>
    show newlines ("-" ++ Nat.repr (m + 1)) = 0
    rw [newlines_append, newlines_nat_repr]
    decide
/-- Lines of a concatenation of outputs. -/
theorem lineCount_append (o1 o2 : Output) :
    lineCount (o1 ++ o2) = lineCount o1 + lineCount o2 := by
  simp [lineCount]

/-- Lines of an output that starts with one more chunk. -/
theorem lineCount_cons (c : OStream × String) (o : Output) :
    lineCount (c :: o) = newlines c.2 + lineCount o := by
  simp [lineCount]

/-- A call of `evaluates` whose texts have no newline writes no line when it
succeeds and exactly one line when it fails. -/
theorem evaluates_lineCount (sd : Double → String) (compare result : Bool) (e1 e2 : Val)
    (str1 str2 file : String) (line : Int) (out : OStream) (name : String) (die : Bool)
    (hc : Call.clean sd ⟨compare, result, e1, e2, str1, str2, file, line⟩ = true)
    (hn : newlines name = 0) :
    lineCount (Unittest.evaluates sd compare result e1 e2 str1 str2 file line out name
      die).out = if success result e1 e2 then 0 else 1 := by
  simp only [Call.clean, Bool.and_eq_true, decide_eq_true_eq] at hc
  obtain ⟨⟨⟨⟨h1, h2⟩, h3⟩, h4⟩, h5⟩ := hc
  have hl := newlines_toString_int line
  unfold Unittest.evaluates success
  cases hs : (if result then comp e1 e2 else !comp e1 e2)
  · have k1 : newlines ":" = 0 := by decide
    have k2 : newlines " in " = 0 := by decide
    have k3 : newlines "Unittest(" = 0 := by decide
    have k4 : newlines ") Assert Failed: " = 0 := by decide
    have k5 : newlines " Assert Failed: " = 0 := by decide
    have k6 : newlines "compare \x7b" = 0 := by decide
    have k7 : newlines "\x7d " = 0 := by decide
    have k8 : newlines " \x7b" = 0 := by decide
    have k9 : newlines "got \x7b\"" = 0 := by decide
    have k10 : newlines "\"\x7d " = 0 := by decide
    have k11 : newlines " \x7b\"" = 0 := by decide
    have k12 : newlines "\"\x7d" = 0 := by decide
    have k13 : newlines "evalute \x7b" = 0 := by decide
    have k14 : newlines "\x7d == " = 0 := by decide
    have k15 : newlines "==" = 0 := by decide
    have k16 : newlines "!=" = 0 := by decide
    have k17 : newlines "\n" = 1 := by decide
    by_cases hname : name = "" <;> cases compare <;> cases result <;> cases die <;>
      simp [hname, lineCount, newlines_append, h1, h2, h3, h4, h5, hl, hn, k1, k2, k3, k4,
        k5, k6, k7, k8, k9, k10, k11, k12, k13, k14, k15, k16, k17]
  · simp [lineCount]

/-- An assertion call changes neither the file, nor the line, nor the name,
nor the body of the test. -/
theorem eval_frame (sd : Double → String) (a : Assertion) (u : Unittest) :
    (a.eval sd u).1.file = u.file ∧ (a.eval sd u).1.line = u.line ∧
      (a.eval sd u).1.name_ = u.name_ := by
  cases a with
  | member c =>
    simp only [Assertion.eval]
    rw [(evaluate_eq sd u c.compare c.result c.e1 c.e2 c.str1 c.str2 c.file c.line).2]
    split <;> simp
  | static c o n die => simp [Assertion.eval]

/-- A body changes neither the file, nor the line, nor the name of its test. -/
theorem exec_frame (sd : Double → String) (b : Body) :
    ∀ u : Unittest, (Body.exec sd b u).self.file = u.file ∧
      (Body.exec sd b u).self.line = u.line ∧ (Body.exec sd b u).self.name_ = u.name_ := by
  induction b with
  | done => intro u; simp [Body.exec]
  | raise x => intro u; simp [Body.exec]
  | setOutputStream o k ih =>
    intro u
    simpa [Body.exec, Unittest.setOutputStream] using ih (u.setOutputStream o)
  | assert a k ih =>
    intro u
    have hf := eval_frame sd a u
    rw [Body.exec]
    rcases hev : a.eval sd u with ⟨self', o, c⟩
    rw [hev] at hf
    cases c with
    | ret r =>
      obtain ⟨h1, h2, h3⟩ := ih r self'
      simp only at hf ⊢
      exact ⟨h1.trans hf.1, h2.trans hf.2.1, h3.trans hf.2.2⟩
    | raise x => exact hf
    | exit code => exact hf

/-- When a call of `evaluates` returns, it returns the success condition. -/
theorem evaluates_ret (sd : Double → String) (compare result : Bool) (e1 e2 : Val)
    (str1 str2 file : String) (line : Int) (out : OStream) (name : String) (die r : Bool)
    (h : (Unittest.evaluates sd compare result e1 e2 str1 str2 file line out name die).ctrl =
      Ctrl.ret r) : r = success result e1 e2 := by
  unfold Unittest.evaluates at h
  unfold success
  cases hs : (if result then comp e1 e2 else !comp e1 e2) <;> rw [hs] at h <;>
    cases die <;> simp_all

/-- The text written and the control result of `evaluate` are those of the
call of `evaluates` it makes. -/
theorem evaluate_snd (sd : Double → String) (self : Unittest) (compare result : Bool)
    (e1 e2 : Val) (str1 str2 file : String) (line : Int) :
    (self.evaluate sd compare result e1 e2 str1 str2 file line).2 =
      Unittest.evaluates sd compare result e1 e2 str1 str2 file line self.out_ self.name_
        false := by
  unfold Unittest.evaluate
  generalize Unittest.evaluates sd compare result e1 e2 str1 str2 file line self.out_
    self.name_ false = r
  rcases r with ⟨o, c⟩
  cases c <;> rfl

/-- An assertion call that returns and whose texts have no newline wrote one
line if it returned `false` and none if it returned `true`. -/
theorem eval_ret_lineCount (sd : Double → String) (a : Assertion) (u u' : Unittest)
    (o : Output) (r : Bool) (hc : a.clean sd = true) (hn : newlines u.name_ = 0)
    (hev : a.eval sd u = (u', ⟨o, Ctrl.ret r⟩)) :
    lineCount o = if r then 0 else 1 := by
  cases a with
  | member c =>
    simp only [Assertion.eval] at hev
    have h1 := (evaluate_eq sd u c.compare c.result c.e1 c.e2 c.str1 c.str2 c.file c.line).1
    have h2 := evaluates_lineCount sd c.compare c.result c.e1 c.e2 c.str1 c.str2 c.file
      c.line u.out_ u.name_ false hc hn
    have h3 : (u.evaluate sd c.compare c.result c.e1 c.e2 c.str1 c.str2 c.file c.line).2.out =
        (Unittest.evaluates sd c.compare c.result c.e1 c.e2 c.str1 c.str2 c.file c.line
          u.out_ u.name_ false).out := by
      rw [evaluate_snd]
    rw [hev] at h1 h3
    simp only [Ctrl.ret.injEq] at h1
    simp only at h3
    rw [h3, h2, h1]
  | static c so n die =>
    simp only [Assertion.clean, Bool.and_eq_true, decide_eq_true_eq] at hc
    simp only [Assertion.eval, Prod.mk.injEq] at hev
    have h2 := evaluates_lineCount sd c.compare c.result c.e1 c.e2 c.str1 c.str2 c.file
      c.line so n die hc.1 hc.2
    have h1 := evaluates_ret sd c.compare c.result c.e1 c.e2 c.str1 c.str2 c.file
      c.line so n die r (by rw [hev.2])
    rw [hev.2] at h2
    simp only at h2
    rw [h2, h1]

/-- An assertion call does not throw. -/
theorem eval_not_raise (sd : Double → String) (a : Assertion) (u : Unittest) (x : Thrown) :
    (a.eval sd u).2.ctrl ≠ Ctrl.raise x := by
  cases a with
  | member c =>
    simp only [Assertion.eval]
    rw [(evaluate_eq sd u c.compare c.result c.e1 c.e2 c.str1 c.str2 c.file c.line).1]
    simp
  | static c o n die =>
    simp only [Assertion.eval]
    cases hs : success c.result c.e1 c.e2
    · cases die
      · rw [evaluates_ctrl]; simp
      · rw [(evaluates_die sd c.compare c.result c.e1 c.e2 c.str1 c.str2 c.file c.line o n
          hs).1]
        simp
    · rw [evaluates_of_success sd c.compare c.result c.e1 c.e2 c.str1 c.str2 c.file c.line
        o n die hs]
      simp

/-- The failures of a body that starts with an assertion. -/
theorem failures_assert (sd : Double → String) (a : Assertion) (k : Bool → Body)
    (u : Unittest) :
    Body.failures sd (Body.assert a k) u =
      (if returnedFalse sd (a, u) then 1 else 0) +
        match a.eval sd u with
        | (u', ⟨_, Ctrl.ret r⟩) => Body.failures sd (k r) u'
        | _ => 0 := by
  simp only [Body.failures, Body.trace, List.filter_cons]
  rcases hev : a.eval sd u with ⟨self', o, c⟩
  cases c <;> cases hrf : returnedFalse sd (a, u) <;> simp
  omega

/-- In a body whose texts have no newline and that does not end the process,
the lines written are the failed assertions, and an exception that leaves the
body has a message without newline. -/
theorem exec_lineCount (sd : Double → String) (b : Body) :
    ∀ u : Unittest, b.clean sd = true → newlines u.name_ = 0 →
      (Body.exec sd b u).ctrl.resumes = true →
      lineCount (Body.exec sd b u).out = Body.failures sd b u ∧
        ∀ x, (Body.exec sd b u).ctrl = Ctrl.raise x → x.clean = true := by
  induction b with
  | done => intro u _ _ _; simp [Body.exec, Body.failures, Body.trace, lineCount]
  | raise x =>
    intro u hc _ _
    simp only [Body.clean] at hc
    simp [Body.exec, Body.failures, Body.trace, lineCount, hc]
  | setOutputStream o k ih =>
    intro u hc hn hr
    simp only [Body.clean] at hc
    simpa [Body.exec, Body.failures, Body.trace] using
      ih (u.setOutputStream o) hc hn (by simpa [Body.exec] using hr)
  | assert a k ih =>
    intro u hc hn hr
    simp only [Body.clean, Bool.and_eq_true] at hc
    obtain ⟨⟨hca, hct⟩, hcf⟩ := hc
    have hf := eval_frame sd a u
    rw [failures_assert]
    rw [Body.exec] at hr ⊢
    rcases hev : a.eval sd u with ⟨self', o, c⟩
    rw [hev] at hr hf
    cases c with
    | ret r =>
      have hl := eval_ret_lineCount sd a u self' o r hca hn hev
      have hck : (k r).clean sd = true := by cases r <;> assumption
      have hrf : returnedFalse sd (a, u) = !r := by
        simp only [returnedFalse, hev]
        cases r <;> simp
      obtain ⟨h1, h2⟩ := ih r self' hck (by rw [hf.2.2]; exact hn) hr
      simp only at h1 h2 ⊢
      refine ⟨?_, h2⟩
      rw [lineCount_append, hl, h1, hrf]
      cases r <;> simp
    | raise x => exact absurd (by rw [hev]) (eval_not_raise sd a u x)
    | exit code => simp [Ctrl.resumes] at hr

/-- `run` writes what the body writes. -/
theorem run_out (sd : Double → String) (t : Unittest) :
    (t.run sd).out = (Body.exec sd t.run_impl t).out := by
  unfold Unittest.run
  cases h : (Body.exec sd t.run_impl t).ctrl <;> simp [h]

/-- `run` comes back to its caller exactly when the body does. -/
theorem run_resumes (sd : Double → String) (t : Unittest) :
    (t.run sd).ctrl.resumes = (Body.exec sd t.run_impl t).ctrl.resumes := by
  unfold Unittest.run
  cases h : (Body.exec sd t.run_impl t).ctrl <;> simp [h, Ctrl.resumes]

/-- In a registry whose texts have no newline and in which no test ends the
process, the loop writes one line per failed assertion and one per test whose
body threw. -/
theorem runTestsFrom_lineCount (sd : Double → String) (ts : List Unittest)
    (hlive : ∀ t ∈ ts, (t.run sd).ctrl.resumes = true)
    (hclean : ∀ t ∈ ts, t.clean sd = true) :
    ∀ (i : Nat) (rs : Bool),
      lineCount (runTestsFrom sd ts i rs).out =
        (ts.map fun t => Body.failures sd t.run_impl t).sum +
          (ts.filter fun t => (t.run sd).ctrl.raised).length := by
  induction ts with
  | nil => intro i rs; simp [runTestsFrom, lineCount]
  | cons t ts ih =>
    intro i rs
    have hl := hlive t (List.mem_cons_self t ts)
    have hc := hclean t (List.mem_cons_self t ts)
    have ih' := ih (fun u hu => hlive u (List.mem_cons_of_mem t hu))
      (fun u hu => hclean u (List.mem_cons_of_mem t hu))
    simp only [Unittest.clean, Bool.and_eq_true, decide_eq_true_eq] at hc
    obtain ⟨⟨hfile, hname⟩, hbody⟩ := hc
    obtain ⟨hlines, hmsg⟩ := exec_lineCount sd t.run_impl t hbody hname
      (by rw [← run_resumes]; exact hl)
    obtain ⟨ff, -, fn⟩ := exec_frame sd t.run_impl t
    rw [← run_out] at hlines
    rw [← run_self] at ff fn
    have k1 : newlines ":" = 0 := by decide
    have k2 : newlines " Unittest" = 0 := by decide
    have k3 : newlines " has thrown an " = 0 := by decide
    have k4 : newlines "uncaught exception " = 0 := by decide
    have k5 : newlines " with message " = 0 := by decide
    have k6 : newlines "\n" = 1 := by decide
    have hline := newlines_toString_int (t.run sd).self.line
    rw [runTestsFrom]
    cases h : (t.run sd).ctrl with
    | ret tmp =>
      simp only [lineCount_append, hlines, ih', List.map_cons, List.sum_cons,
        List.filter_cons, h, Ctrl.raised]
      simp
      omega
    | raise x =>
      have hx := hmsg x ((run_ctrl_raise_iff sd t x).1 h)
      cases x with
      | exception what =>
        simp only [Thrown.clean, decide_eq_true_eq] at hx
        simp only [lineCount_append, lineCount_cons, hlines, ih', List.map_cons,
          List.sum_cons, List.filter_cons, h, Ctrl.raised, newlines_append, ff, fn, hfile,
          hname, hx, hline, k1, k2, k3, k4, k5, k6]
        simp
        omega
      | other =>
        simp only [lineCount_append, lineCount_cons, hlines, ih', List.map_cons,
          List.sum_cons, List.filter_cons, h, Ctrl.raised, newlines_append, ff, fn, hfile,
          hname, hline, k1, k2, k3, k4, k6]
        simp
        omega
    | exit code => rw [h] at hl; simp [Ctrl.resumes] at hl

/-- C16, the claim as stated fails: the only test of `newlineRegistry` throws
an exception whose message has two lines; no fatal assertion fails, no
assertion fails and one body raised, yet two lines are written. -/
theorem runTests_two_lines_for_one_error :
    (∀ t ∈ newlineRegistry, (t.run plainDouble).ctrl.resumes = true) ∧
      (runTests plainDouble newlineRegistry).out =
        [(OStream.cerr, "d.cpp:3 Unittestmulti has thrown an uncaught exception " ++
          " with message first\nsecond\n")] ∧
      lineCount (runTests plainDouble newlineRegistry).out = 2 ∧
      (newlineRegistry.map fun t => Body.failures plainDouble t.run_impl t).sum +
        (newlineRegistry.filter fun t => (t.run plainDouble).ctrl.raised).length = 1 := by
  decide

/-- C16 as amended: for every run of `runTests` in which no fatal assertion
fails and no text put into the output (file names, test names, operand texts
and renderings, exception messages) contains a newline, the number of text
lines written, all sinks together, is the number of failed non-fatal assertions
plus the number of tests whose body raised an error.  With `T1` failing one
non-fatal assertion and `T2` none, `runTests` returns `false` and writes
exactly one line, which starts with `t1.cpp:4`. -/
theorem runTests_line_count (sd : Double → String) (tests : List Unittest)
    (hlive : ∀ t ∈ tests, (t.run sd).ctrl.resumes = true)
    (hclean : ∀ t ∈ tests, t.clean sd = true) :
    lineCount (runTests sd tests).out =
        (tests.map fun t => Body.failures sd t.run_impl t).sum +
          (tests.filter fun t => (t.run sd).ctrl.raised).length ∧
      (runTests sd twoTests).ctrl = Ctrl.ret false ∧
      (runTests sd twoTests).out =
        [(OStream.cerr, "t1.cpp:4" ++ " in Unittest(T1) Assert Failed: " ++
          "compare \x7b42\x7d == \x7b43\x7d got \x7b\"42\"\x7d == \x7b\"43\"\x7d\n")] ∧
      lineCount (runTests sd twoTests).out = 1 := by
  have hout : (runTests sd twoTests).out =
      [(OStream.cerr, "t1.cpp:4" ++ " in Unittest(T1) Assert Failed: " ++
        "compare \x7b42\x7d == \x7b43\x7d got \x7b\"42\"\x7d == \x7b\"43\"\x7d\n")] := rfl
  refine ⟨runTestsFrom_lineCount sd tests hlive hclean 0 true, rfl, hout, ?_⟩
  rw [hout]
  decide

/-- C16 as amended, at `throwingRegistry`: one failed assertion and one thrown
exception, two lines. -/
theorem runTests_line_count_witness :
    lineCount (runTests plainDouble throwingRegistry).out = 2 ∧
      (throwingRegistry.map fun t => Body.failures plainDouble t.run_impl t).sum = 1 ∧
      (throwingRegistry.filter fun t => (t.run plainDouble).ctrl.raised).length = 1 :=
  ⟨((runTests_line_count plainDouble throwingRegistry (by decide) (by decide)).1).trans
      (by decide), by decide, by decide⟩

/-! ## What the driver leaves unchanged -/

/-- Every test of the registry is, after the loop, either as it was or as its
own `run` leaves it. -/
theorem runTestsFrom_tests (sd : Double → String) (ts : List Unittest) :
    ∀ (i : Nat) (rs : Bool),
      List.Forall₂ (fun v u => u = v ∨ u = (v.run sd).self) ts
        (runTestsFrom sd ts i rs).tests := by
  induction ts with
  | nil => intro i rs; simp [runTestsFrom]
  | cons t ts ih =>
    intro i rs
    rw [runTestsFrom]
    cases h : (t.run sd).ctrl with
    | ret tmp => exact List.Forall₂.cons (Or.inr rfl) (ih _ _)
    | raise x => cases x <;> exact List.Forall₂.cons (Or.inr rfl) (ih _ _)
    | exit code =>
      refine List.Forall₂.cons (Or.inr rfl) ?_
      exact List.forall₂_same.2 (fun _ _ => Or.inl rfl)

/-- The failure count after an assertion call: one more exactly when the call
is a call of `evaluate` that returned `false`. -/
theorem eval_errors (sd : Double → String) (a : Assertion) (u : Unittest) :
    (a.eval sd u).1.errors_ =
      u.errors_ + (if a.isMember && returnedFalse sd (a, u) then 1 else 0) := by
  cases a with
  | member c =>
    obtain ⟨h1, h2⟩ := evaluate_eq sd u c.compare c.result c.e1 c.e2 c.str1 c.str2 c.file
      c.line
    simp only [Assertion.eval, Assertion.isMember, returnedFalse, h1, h2, Bool.true_and]
    cases success c.result c.e1 c.e2 <;> simp
  | static c o n die => simp [Assertion.eval, Assertion.isMember]

/-- The failure count after a body is the count before plus the number of
calls of `evaluate` that failed. -/
theorem exec_errors (sd : Double → String) (b : Body) :
    ∀ u : Unittest,
      (Body.exec sd b u).self.errors_ = u.errors_ + Body.recorded sd b u := by
  induction b with
  | done => intro u; simp [Body.exec, Body.recorded, Body.trace]
  | raise x => intro u; simp [Body.exec, Body.recorded, Body.trace]
  | setOutputStream o k ih =>
    intro u
    simpa [Body.exec, Body.recorded, Body.trace, Unittest.setOutputStream] using
      ih (u.setOutputStream o)
  | assert a k ih =>
    intro u
    have he := eval_errors sd a u
    simp only [Body.recorded, Body.trace, List.filter_cons] at ih ⊢
    rw [Body.exec]
    rcases hev : a.eval sd u with ⟨self', o, c⟩
    rw [hev] at he
    simp only at he
    cases c with
    | ret r =>
      have h := ih r self'
      simp only [Body.recorded] at h
      simp only [h, he]
      split <;> simp
      omega
    | raise x => simp only [he]; split <;> simp
    | exit code => simp only [he]; split <;> simp

/-- Tests that are as they were, or as their own `run` left them, have kept
their names, files and lines. -/
theorem frame_of_forall₂ (sd : Double → String) (l1 l2 : List Unittest)
    (h : List.Forall₂ (fun v u => u = v ∨ u = (v.run sd).self) l1 l2) :
    l2.map (fun u => (u.name_, u.file, u.line)) =
      l1.map (fun u => (u.name_, u.file, u.line)) := by
  induction h with
  | nil => rfl
  | @cons v u l1' l2' hd _ ih =>
    have hu : (u.name_, u.file, u.line) = (v.name_, v.file, v.line) := by
      rcases hd with hd | hd
      · rw [hd]
      · obtain ⟨f1, f2, f3⟩ := exec_frame sd v.run_impl v
        rw [hd, run_self, f1, f2, f3]
    simp only [List.map_cons, hu, ih]

/-- C19: when the body of a registered test raises an error during
`runTests`, the handling of that error changes no test: afterwards the test is
as its body left it, its failure count is the count before plus the number of
non-fatal assertions (calls of `evaluate`) that failed in its body, which is
that number for a test that starts at `0`; every registered test keeps its
name, file and line, and is as it was or as its own `run` left it.  The
aggregate is false: `runTests` does not return `true`, and returns `false` when
the `run` of every later test returns or raises. -/
theorem driver_handling_frame (sd : Double → String) (pre : List Unittest) (t : Unittest)
    (post : List Unittest) (x : Thrown)
    (hpre : ∀ p ∈ pre, (p.run sd).ctrl.resumes = true)
    (hraise : (Body.exec sd t.run_impl t).ctrl = Ctrl.raise x) :
    (∃ rest', (runTests sd (pre ++ t :: post)).tests =
        pre.map (fun p => (p.run sd).self) ++ (Body.exec sd t.run_impl t).self :: rest') ∧
      (Body.exec sd t.run_impl t).self.errors_ =
        t.errors_ + Body.recorded sd t.run_impl t ∧
      (t.errors_ = 0 →
        ((runTests sd (pre ++ t :: post)).tests[pre.length]?).map (fun u => u.errors_) =
          some (Body.recorded sd t.run_impl t)) ∧
      (runTests sd (pre ++ t :: post)).tests.map (fun u => (u.name_, u.file, u.line)) =
        (pre ++ t :: post).map (fun u => (u.name_, u.file, u.line)) ∧
      List.Forall₂ (fun v u => u = v ∨ u = (v.run sd).self) (pre ++ t :: post)
        (runTests sd (pre ++ t :: post)).tests ∧
      (runTests sd (pre ++ t :: post)).ctrl ≠ Ctrl.ret true ∧
      ((∀ q ∈ post, (q.run sd).ctrl.resumes = true) →
        (runTests sd (pre ++ t :: post)).ctrl = Ctrl.ret false) := by
  have hrun : (t.run sd).ctrl = Ctrl.raise x := (run_ctrl_raise_iff sd t x).2 hraise
  have hall := runTestsFrom_tests sd (pre ++ t :: post) 0 true
  obtain ⟨rs', -, h1, -, -, h4⟩ := runTestsFrom_append sd pre hpre (t :: post) 0 true
  have hrest : ∃ rest', (runTestsFrom sd (t :: post) (0 + pre.length) rs').tests =
      (t.run sd).self :: rest' := by
    rw [runTestsFrom]
    cases x <;> simp only [hrun] <;> exact ⟨_, rfl⟩
  obtain ⟨rest', hrest'⟩ := hrest
  have htests : (runTests sd (pre ++ t :: post)).tests =
      pre.map (fun p => (p.run sd).self) ++ (Body.exec sd t.run_impl t).self :: rest' := by
    rw [runTests, h1, hrest', run_self]
  have herr := exec_errors sd t.run_impl t
  have hnot : (runTests sd (pre ++ t :: post)).ctrl ≠ Ctrl.ret true := by
    intro hc
    have := ((runTestsFrom_ctrl_true sd (pre ++ t :: post) 0 true).1 hc).2 t (by simp)
    rw [hrun] at this
    simp at this
  refine ⟨⟨rest', htests⟩, herr, ?_, ?_, hall, hnot, ?_⟩
  · intro h0
    rw [htests, List.getElem?_append_right (by simp)]
    simp [herr, h0]
  · exact frame_of_forall₂ sd _ _ hall
  · intro hpost
    have hlive : ∀ q ∈ pre ++ t :: post, (q.run sd).ctrl.resumes = true := by
      intro q hq
      rcases List.mem_append.1 hq with hq | hq
      · exact hpre q hq
      · rcases List.mem_cons.1 hq with hq | hq
        · rw [hq, hrun]; rfl
        · exact hpost q hq
    obtain ⟨-, -, b, hb⟩ := runTestsFrom_of_no_exit sd _ hlive 0 true
    cases b with
    | false => exact hb
    | true => exact absurd hb hnot

/-- C19 at the registry `assertingFirst`, `raisingSecond`, `assertingThird`:
the second test fails one `AS_T` and then throws; afterwards its failure count
is `1` and `runTests` returns `false`. -/
theorem driver_handling_frame_witness :
    (((runTests plainDouble
          ([assertingFirst] ++ raisingSecond :: [assertingThird])).tests[[assertingFirst].length]?).map
          (fun u => u.errors_) =
        some (Body.recorded plainDouble raisingSecond.run_impl raisingSecond)) ∧
      Body.recorded plainDouble raisingSecond.run_impl raisingSecond = 1 ∧
      (runTests plainDouble ([assertingFirst] ++ raisingSecond :: [assertingThird])).ctrl =
        Ctrl.ret false :=
  have h := driver_handling_frame plainDouble [assertingFirst] raisingSecond [assertingThird]
    (Thrown.exception "boom") (by decide) (by decide)
  ⟨h.2.2.1 (by decide), by decide, h.2.2.2.2.2.2 (by decide)⟩

end SweetUnit
